import Mathlib

/-!
Verification of the notice normalisation / stage classification / filtering
pipeline of the Contract-tender repository.

The JavaScript sources embedded here:
  * src/lib/filters.mjs   — applyFilters, deriveProcurementStage and helpers
  * src/lib/fts.mjs       — containsAuthorityKeyword, selectRelevantRelease,
                            mapReleasePackageToNotice and the projection helpers
  * src/app/api/search/route.ts — decodeHtmlEntities and the stage attachment
                            (`procurementStage: stageLabel || null`)

Modelling conventions:
  * JavaScript strings are Lean `String`s; case conversion is modelled on the
    ASCII range (the JS code only compares ASCII tokens, and the token
    normaliser deletes every character outside [a-z0-9] anyway).
  * `null`/`undefined` string fields are `Option String` (`none`); JS string
    truthiness (`""` falsy) is `optStrTruthy`.
  * JS numbers are exact rationals `ℚ`; `NaN` is represented as `none` of
    `Option ℚ` at the points where the code tests `Number.isNaN`.  Double
    rounding/overflow is not modelled (the filter logic is purely order
    theoretic).
  * `Date.parse` is modelled for the ISO-8601 profiles the pipeline feeds it:
    `YYYY-MM-DD` (UTC midnight) and `YYYY-MM-DDTHH:MM:SS` with a mandatory
    `Z` designator; every other shape parses to `none` (NaN).
  * The Stage Classifier is modelled twice.  The string-typed functions
    (`deriveProcurementStage` and friends) restrict the `STAGE_LABELS` and
    `TYPE_ALIAS` lookups to own properties.  Because both tables are plain JS
    object literals, the program's lookups also reach `Object.prototype`; the
    single inherited property name that survives token normalisation is
    `constructor` (the `Object` constructor function, which is truthy).  The
    `...Js` layer near the end of the file (`JsDyn`,
    `deriveProcurementStageJs`) models that prototype chain exactly — it can
    return the non-string constructor value or raise the `TypeError` the
    program raises when that function is unshifted into the pattern-matching
    candidate list.
-/

/-- JS `\w` character class `[A-Za-z0-9_]` (used by the `\W` boundaries of
`NHS_REGEX` in src/lib/fts.mjs). -/
def isWordChar (c : Char) : Bool :=
  ('a' ≤ c && c ≤ 'z') || ('A' ≤ c && c ≤ 'Z') || ('0' ≤ c && c ≤ '9') || c = '_'

/-- ASCII uppercase of one character, as JS `toUpperCase` acts on the ASCII
range (non-ASCII letters never survive the pipeline's token comparisons). -/
def jsCharUpper (c : Char) : Char := c.toUpper

/-- ASCII lowercase of one character. -/
def jsCharLower (c : Char) : Char := c.toLower

/-- JS `String.toUpperCase()` (ASCII model), defined by a structural map over the
character list so that concrete instances reduce in the kernel. -/
def jsToUpper (s : String) : String := String.mk (s.data.map jsCharUpper)

/-- JS `String.toLowerCase()` (ASCII model). -/
def jsToLower (s : String) : String := String.mk (s.data.map jsCharLower)

/-- JS `hay.includes(sub)` on character lists: `sub` occurs contiguously in
`hay`. -/
def jsIncludesChars (sub : List Char) : List Char → Bool
  | [] => sub.isPrefixOf []
  | c :: t => sub.isPrefixOf (c :: t) || jsIncludesChars sub t

/-- JS `hay.includes(sub)` for strings. -/
def jsIncludes (hay sub : String) : Bool := jsIncludesChars sub.data hay.data

theorem jsIncludesChars_iff (sub hay : List Char) :
    jsIncludesChars sub hay = true ↔ sub <:+: hay := by
  induction hay with
  | nil =>
      rw [jsIncludesChars, List.isPrefixOf_iff_prefix]
      constructor
      · intro h; exact (List.prefix_nil.mp h) ▸ List.infix_rfl
      · intro h; exact (List.infix_nil.mp h) ▸ List.prefix_rfl
  | cons c t ih =>
      rw [jsIncludesChars, List.infix_cons_iff]
      simp only [Bool.or_eq_true, List.isPrefixOf_iff_prefix, ih]

/-- JS string truthiness for a nullable string field. -/
def optStrTruthy (v : Option String) : Bool :=
  match v with
  | none => false
  | some s => s ≠ ""

/-- JS `value || ""` for a nullable string field. -/
def orEmpty (v : Option String) : String := v.getD ""

/-- JS `a || b` on nullable strings (JS truthy-or). -/
def orStr (a b : Option String) : Option String :=
  if optStrTruthy a then a else b

/-- JS `a || b || null` on nullable strings: the first truthy operand, else
`null`. -/
def orStrNull (a b : Option String) : Option String :=
  if optStrTruthy a then a else if optStrTruthy b then b else none

/-! ## src/lib/fts.mjs — Authority-Match Filter -/

/-- JS `FTS_AUTHORITY_KEYWORDS` (src/lib/fts.mjs line 295). -/
def FTS_AUTHORITY_KEYWORDS : List String :=
  ["nhs", "nhs trust", "nhs foundation trust", "national health service"]

/-- One step of matching `NHS_REGEX = /(^|\W)nhs(\W|$)/i`: scans the character
list carrying the previous character (for the left boundary).  The `/i` flag is
modelled by comparing uppercased characters. -/
def nhsRegexAux (prev : Option Char) : List Char → Bool
  | a :: b :: c :: rest =>
      (jsCharUpper a = 'N' && jsCharUpper b = 'H' && jsCharUpper c = 'S'
        && (match prev with | none => true | some p => !isWordChar p)
        && (match rest with | [] => true | d :: _ => !isWordChar d))
      || nhsRegexAux (some a) (b :: c :: rest)
  | _ => false

/-- JS `NHS_REGEX.test(value)` (src/lib/fts.mjs line 296). -/
def nhsRegexTest (value : String) : Bool := nhsRegexAux none value.data

/-- JS `containsAuthorityKeyword` (src/lib/fts.mjs lines 298-304).  A non-string
input (`none`) returns false; otherwise the word-boundary regex, then a plain
`includes("NHS")` on the uppercased input, then the keyword list as plain
substrings. -/
def containsAuthorityKeyword (value : Option String) : Bool :=
  match value with
  | none => false
  | some v =>
      nhsRegexTest v ||
        (let upper := jsToUpper v
         jsIncludes upper "NHS" ||
           FTS_AUTHORITY_KEYWORDS.any (fun keyword => jsIncludes upper (jsToUpper keyword)))

theorem nhsRegexAux_sound (prev : Option Char) (l : List Char)
    (h : nhsRegexAux prev l = true) :
    ∃ a b c, [a, b, c] <:+: l ∧ jsCharUpper a = 'N' ∧ jsCharUpper b = 'H' ∧
      jsCharUpper c = 'S' := by
  induction l generalizing prev with
  | nil => simp [nhsRegexAux] at h
  | cons x t ih =>
      match t with
      | [] => simp [nhsRegexAux] at h
      | [y] => simp [nhsRegexAux] at h
      | y :: z :: rest =>
          simp only [nhsRegexAux, Bool.or_eq_true, Bool.and_eq_true,
            decide_eq_true_eq] at h
          rcases h with ⟨⟨⟨⟨ha, hb⟩, hc⟩, _⟩, _⟩ | h2
          · exact ⟨x, y, z, ⟨[], rest, by simp⟩, ha, hb, hc⟩
          · obtain ⟨a, b, c, hinf, ha, hb, hc⟩ := ih (some x) h2
            exact ⟨a, b, c, hinf.trans ((List.suffix_cons x _).isInfix), ha, hb, hc⟩

theorem jsIncludes_iff (hay sub : String) :
    jsIncludes hay sub = true ↔ sub.data <:+: hay.data :=
  jsIncludesChars_iff _ _

theorem jsIncludes_trans {hay mid sub : String} (h1 : jsIncludes hay mid = true)
    (h2 : jsIncludes mid sub = true) : jsIncludes hay sub = true :=
  (jsIncludes_iff _ _).mpr (((jsIncludes_iff _ _).mp h2).trans ((jsIncludes_iff _ _).mp h1))

theorem nhsRegexTest_includes {v : String} (h : nhsRegexTest v = true) :
    jsIncludes (jsToUpper v) "NHS" = true := by
  obtain ⟨a, b, c, hinf, ha, hb, hc⟩ := nhsRegexAux_sound none v.data h
  rw [jsIncludes_iff]
  have hmap : [a, b, c].map jsCharUpper <:+: v.data.map jsCharUpper :=
    List.IsInfix.map jsCharUpper hinf
  simp only [List.map, ha, hb, hc] at hmap
  have hdata : (jsToUpper v).data = v.data.map jsCharUpper := rfl
  rw [hdata]
  exact hmap

/-- C1 (counterexample): the spec requires `isAuthorityMatch("Cornhshire") ===
false` (the bare token "nhs" is supposed to match only at word boundaries), but
`containsAuthorityKeyword` also runs a plain `upper.includes("NHS")` test, and
"CORNHSHIRE" contains "NHS" as an interior substring, so the function returns
true. -/
theorem claim_C1_counterexample :
    containsAuthorityKeyword (some "Cornhshire") = true := by decide

/-- C1 (amended): `containsAuthorityKeyword` returns true exactly when the
input is a string that contains, case-insensitively, "nhs" as a plain substring
(no word boundary required — the `upper.includes("NHS")` test and the "nhs"
entry of the keyword list both fire on interior occurrences) or the phrase
"national health service" as a substring; a non-string input yields false.
Consequently "Greater Manchester NHS Trust" matches, "Acme Widgets Ltd" does
not, and "Cornhshire" DOES match. -/
theorem claim_C1 :
    (∀ s : String, containsAuthorityKeyword (some s) = true ↔
      (jsIncludes (jsToUpper s) "NHS" = true ∨
        jsIncludes (jsToUpper s) "NATIONAL HEALTH SERVICE" = true)) ∧
    containsAuthorityKeyword none = false ∧
    containsAuthorityKeyword (some "Greater Manchester NHS Trust") = true ∧
    containsAuthorityKeyword (some "Acme Widgets Ltd") = false ∧
    containsAuthorityKeyword (some "Cornhshire") = true := by
  refine ⟨?_, rfl, by decide, by decide, by decide⟩
  intro s
  constructor
  · intro h
    simp only [containsAuthorityKeyword, Bool.or_eq_true, FTS_AUTHORITY_KEYWORDS,
      List.any_cons, List.any_nil, Bool.or_false] at h
    rcases h with hregex | hnhs | hkw
    · exact Or.inl (nhsRegexTest_includes hregex)
    · exact Or.inl hnhs
    · rcases hkw with h1 | h2 | h3 | h4
      · exact Or.inl (by
          have he : jsToUpper "nhs" = "NHS" := by decide
          rw [he] at h1; exact h1)
      · exact Or.inl (jsIncludes_trans (by
          have he : jsToUpper "nhs trust" = "NHS TRUST" := by decide
          rw [he] at h2; exact h2) (by decide))
      · exact Or.inl (jsIncludes_trans (by
          have he : jsToUpper "nhs foundation trust" = "NHS FOUNDATION TRUST" := by decide
          rw [he] at h3; exact h3) (by decide))
      · exact Or.inr (by
          have he : jsToUpper "national health service" = "NATIONAL HEALTH SERVICE" := by
            decide
          rw [he] at h4; exact h4)
  · intro h
    simp only [containsAuthorityKeyword, Bool.or_eq_true, FTS_AUTHORITY_KEYWORDS,
      List.any_cons, List.any_nil, Bool.or_false]
    rcases h with hnhs | hfull
    · exact Or.inr (Or.inl hnhs)
    · refine Or.inr (Or.inr (Or.inr (Or.inr (Or.inr ?_))))
      have he : jsToUpper "national health service" = "NATIONAL HEALTH SERVICE" := by decide
      rw [he]
      exact hfull

/-- C1 (witness): the amended equivalence instantiated at a concrete input. -/
theorem claim_C1_witness :
    containsAuthorityKeyword (some "East Kent NHS Foundation Trust") = true :=
  (claim_C1.1 "East Kent NHS Foundation Trust").mpr (Or.inl (by decide))

/-! ## src/lib/filters.mjs — token normalisation and stage tables -/

/-- Keep `[a-z0-9]` after lowercasing, as the regex replace
`/[^a-z0-9]+/g → ""` in `normaliseToken` (src/lib/filters.mjs lines 260-265). -/
def isTokenChar (c : Char) : Bool :=
  ('a' ≤ c && c ≤ 'z') || ('0' ≤ c && c ≤ '9')

/-- JS `normaliseToken` on a string value: lowercase, then delete every character
outside `[a-z0-9]` (src/lib/filters.mjs lines 260-265). -/
def normaliseToken (s : String) : String :=
  String.mk ((s.data.map jsCharLower).filter isTokenChar)

/-- JS `normaliseToken` on a nullable value: `null`/`undefined` are falsy and
return `""`. -/
def normaliseTokenOpt (v : Option String) : String :=
  match v with
  | none => ""
  | some s => normaliseToken s

/-- JS `STAGE_LABELS` (src/lib/filters.mjs lines 3-10) as the list of its keys. -/
def stageTokens : List String :=
  ["pipeline", "planning", "tender", "award", "contract", "termination"]

/-- The six stage display labels, in table order. -/
def stageLabels : List String :=
  ["Pipeline", "Planning", "Tender", "Award", "Contract", "Termination"]

/-- JS `STAGE_LABELS[token]` lookup restricted to OWN properties; the `""`
default models JS `undefined` for any other key.  Because `STAGE_LABELS` is a
plain object literal, the real lookup also reaches `Object.prototype`: the one
inherited property whose name survives token normalisation is `constructor`,
whose value is the `Object` constructor function.  That prototype-chain path is
modelled faithfully by `stageLabelsLookupJs` below, and the claims whose domain
includes the token `"constructor"` are settled on that model. -/
def stageLabelOf (token : String) : String :=
  if token = "pipeline" then "Pipeline"
  else if token = "planning" then "Planning"
  else if token = "tender" then "Tender"
  else if token = "award" then "Award"
  else if token = "contract" then "Contract"
  else if token = "termination" then "Termination"
  else ""

/-- One `STAGE_MATCHERS` row (src/lib/filters.mjs lines 12-19). -/
structure StageMatcher where
  token : String
  patterns : List String
deriving DecidableEq, Repr

/-- JS `STAGE_MATCHERS` (src/lib/filters.mjs lines 12-19), in declaration order. -/
def STAGE_MATCHERS : List StageMatcher :=
  [⟨"pipeline", ["pipeline", "futureopportunity"]⟩,
   ⟨"planning", ["planning", "preprocurement", "priorinformation", "earlyengagement"]⟩,
   ⟨"tender", ["tender", "contractnotice", "callforcompetition", "competition",
               "corrigendum", "voluntaryexantetransparencynotice"]⟩,
   ⟨"award", ["award", "contractaward"]⟩,
   ⟨"contract", ["contract", "implementation"]⟩,
   ⟨"termination", ["termination", "terminate", "cancel", "closed"]⟩]

/-- JS `resolveStageToken` (src/lib/filters.mjs lines 203-214): first stage, in
table order, one of whose patterns occurs as a substring of some candidate. -/
def resolveStageToken (values : List String) : String :=
  match STAGE_MATCHERS.find? (fun m =>
      values.any (fun candidate => m.patterns.any (fun pattern =>
        jsIncludes candidate pattern))) with
  | some m => m.token
  | none => ""

/-- JS `TYPE_ALIAS` lookup inside `normaliseContractsFinderType`
(src/lib/filters.mjs lines 21-28 and 216-220), restricted to own properties.
In the program, `TYPE_ALIAS["constructor"]` is the truthy inherited `Object`
constructor, so the real function can return a function value; that path is
modelled faithfully by `normaliseContractsFinderTypeJs` below. -/
def normaliseContractsFinderType (value : String) : String :=
  let token := normaliseToken value
  if token = "" then ""
  else if token = "contract" then "contract"
  else if token = "opportunity" then "contract"
  else if token = "pipeline" then "pipeline"
  else if token = "futureopportunity" then "pipeline"
  else if token = "preprocurement" then "preprocurement"
  else if token = "earlyengagement" then "preprocurement"
  else token

/-- JS `normaliseProcurementStageToken` (src/lib/filters.mjs lines 222-228)
with the `STAGE_LABELS[token]` truthiness test restricted to own properties.
In the program the inherited `STAGE_LABELS["constructor"]` is also truthy, so
the token `"constructor"` is returned as an "explicit" stage token; that
prototype-chain path is modelled faithfully by
`normaliseProcurementStageTokenJs` below. -/
def normaliseProcurementStageToken (value : Option String) : String :=
  let token := normaliseTokenOpt value
  if token = "" then ""
  else if stageTokens.contains token then token
  else resolveStageToken [token]

/-! ## The unified Notice model

One structure mirrors the dynamic notice objects flowing through
`applyFilters`, `deriveProcurementStage`, `buildSearchableBlob`,
`matchesAuthorityKeywords` and `hasContractTiming`, plus the fields written by
`mapReleasePackageToNotice`.  Absent fields are `none`/`[]` defaults, exactly
like absent JS object properties. -/

/-- A JS value sitting in a numeric notice field: `null`/absent, a number, or
a string yet to be parsed by `Number(...)`. -/
inductive JNum where
  | null : JNum
  | num (q : ℚ) : JNum
  | str (s : String) : JNum
deriving DecidableEq, Repr

/-- JS truthiness of a `JNum` field (`0`, `""` and `null` are falsy). -/
def jnumTruthy : JNum → Bool
  | .null => false
  | .num q => q ≠ 0
  | .str s => s ≠ ""

/-- JS `contract.period` object (only `startDate`/`endDate` are read). -/
structure JsPeriod where
  startDate : Option String := none
  endDate : Option String := none
deriving DecidableEq, Repr

/-- The `contract` sub-object reached by `notice.contract?.period?.startDate`
in `hasContractTiming`. -/
structure JsContractObj where
  period : Option JsPeriod := none
deriving DecidableEq, Repr

structure Notice where
  id : String := ""
  parentId : Option String := none
  source : String := ""
  link : Option String := none
  title : Option String := none
  description : Option String := none
  noticeType : Option String := none
  noticeStatus : Option String := none
  procurementStage : Option String := none
  noticeStage : Option String := none
  stage : Option String := none
  stageName : Option String := none
  type : Option String := none
  status : Option String := none
  tags : List String := []
  organisationName : Option String := none
  organisationAddress : Option String := none
  noticeIdentifier : Option String := none
  cpvCodes : Option String := none
  cpvCodesExtended : Option String := none
  cpvDescription : Option String := none
  cpvDescriptionExpanded : Option String := none
  regionText : Option String := none
  region : Option String := none
  postcode : Option String := none
  coordinates : Option String := none
  valueLow : JNum := .null
  valueHigh : JNum := .null
  awardedValue : JNum := .null
  awardedSupplier : Option String := none
  publishedDate : Option String := none
  lastNotifiableUpdate : Option String := none
  awardedDate : Option String := none
  deadlineDate : Option String := none
  approachMarketDate : Option String := none
  start : Option String := none
  contractStart : Option String := none
  contractStartDate : Option String := none
  contractPeriodStart : Option String := none
  contract : Option JsContractObj := none
  end_ : Option String := none
  contractEnd : Option String := none
  contractEndDate : Option String := none
  terminationDate : Option String := none
  isSuitableForSme : Option Bool := none
  isSuitableForVco : Option Bool := none
  awardedToSme : Option Bool := none
  awardedToVcse : Option Bool := none
deriving DecidableEq, Repr

/-- JS `hasContractTiming` (src/lib/filters.mjs lines 279-288): some
contract-start-date-like field is truthy. -/
def hasContractTiming (notice : Notice) : Bool :=
  optStrTruthy notice.start || optStrTruthy notice.contractStart ||
    optStrTruthy notice.contractStartDate || optStrTruthy notice.contractPeriodStart ||
    (match notice.contract with
     | none => false
     | some c => match c.period with
       | none => false
       | some p => optStrTruthy p.startDate)

/-- One `push(value)` step inside `collectStageCandidates` (src/lib/filters.mjs
lines 176-184): skip `null`/`undefined`/`""`, normalise, skip an empty token. -/
def tokList (v : Option String) : List String :=
  match v with
  | none => []
  | some s =>
      if s = "" then []
      else
        let token := normaliseToken s
        if token = "" then [] else [token]

/-- JS `push` over an array-valued field (each element goes through `push`). -/
def tokListArr (l : List String) : List String :=
  (l.map (fun s => tokList (some s))).flatten

/-- JS `collectStageCandidates` (src/lib/filters.mjs lines 174-201): the pushed
tokens in push order, plus the three inferred signals. -/
def collectStageCandidates (notice : Notice) : List String :=
  tokList notice.procurementStage ++ tokList notice.noticeStage ++
    tokList notice.stage ++ tokList notice.stageName ++
    tokList notice.noticeType ++ tokList notice.noticeStatus ++
    tokList notice.type ++ tokList notice.status ++
    tokListArr notice.tags ++
    (if optStrTruthy notice.awardedDate || jnumTruthy notice.awardedValue
      then ["award"] else []) ++
    (if hasContractTiming notice then ["contract"] else []) ++
    (if optStrTruthy notice.end_ || optStrTruthy notice.contractEnd ||
        optStrTruthy notice.contractEndDate || optStrTruthy notice.terminationDate
      then ["termination"] else [])

/-- JS `normaliseProcurementStageToken(notice.procurementStage)` — the explicit
stage token (src/lib/filters.mjs line 128). -/
def explicitTokenOf (notice : Notice) : String :=
  normaliseProcurementStageToken notice.procurementStage

/-- JS `source === "CF" || source === "CONTRACTS FINDER"` on the uppercased source
tag (src/lib/filters.mjs lines 131, 135). -/
def cfSource (notice : Notice) : Bool :=
  let source := jsToUpper notice.source
  source = "CF" || source = "CONTRACTS FINDER"

/-- JS `normaliseContractsFinderType(notice.noticeType || "")`
(src/lib/filters.mjs line 132). -/
def typeTokenOf (notice : Notice) : String :=
  normaliseContractsFinderType (orEmpty notice.noticeType)

/-- JS `normaliseToken(notice.noticeStatus || "")` (src/lib/filters.mjs
line 133). -/
def statusTokenOf (notice : Notice) : String :=
  normaliseToken (orEmpty notice.noticeStatus)

/-- The candidate list handed to `resolveStageToken`: `collectStageCandidates`
with `typeToken` unshifted and `statusToken` pushed when non-empty
(src/lib/filters.mjs lines 145-148). -/
def candidatesOf (notice : Notice) : List String :=
  (if typeTokenOf notice ≠ "" then [typeTokenOf notice] else []) ++
    collectStageCandidates notice ++
    (if statusTokenOf notice ≠ "" then [statusTokenOf notice] else [])

/-- JS `deriveProcurementStage` (src/lib/filters.mjs lines 125-157) over the
own-property lookups above.  The `!notice || typeof notice !== "object"` guard
is unreachable in the typed model.  A run with no derivable stage returns `""`
(the JS falsy sentinel the search route converts to `null`).  On the
`"constructor"` token the program instead reaches `Object.prototype` and can
return a function value or throw; `deriveProcurementStageJs` below models that
behaviour exactly. -/
def deriveProcurementStage (notice : Notice) : String :=
  if explicitTokenOf notice ≠ "" then stageLabelOf (explicitTokenOf notice)
  else if cfSource notice && typeTokenOf notice = "pipeline" then "Pipeline"
  else if cfSource notice && typeTokenOf notice = "preprocurement" then "Planning"
  else if cfSource notice && statusTokenOf notice = "open" then "Tender"
  else if cfSource notice && statusTokenOf notice = "awarded" then
    (if hasContractTiming notice then "Contract" else "Award")
  else if cfSource notice && statusTokenOf notice = "closed" then "Termination"
  else
    let resolved := resolveStageToken (candidatesOf notice)
    if resolved ≠ "" then stageLabelOf resolved
    else if cfSource notice && typeTokenOf notice = "contract" then "Tender"
    else ""

/-- The search route's stage attachment `procurementStage: stageLabel || null`
(src/app/api/search/route.ts lines 122-123 and 146-147). -/
def routeStageField (notice : Notice) : Option String :=
  let stageLabel := deriveProcurementStage notice
  if stageLabel = "" then none else some stageLabel

/-- Attaching the derived stage to the notice, as the search route does before
filtering. -/
def attachStage (notice : Notice) : Notice :=
  { notice with procurementStage := routeStageField notice }

/-! ## Date and number parsing (models of the JS runtime builtins)

`Date.parse` is modelled for the ISO-8601 UTC profiles this pipeline feeds it:
`YYYY-MM-DD` (interpreted at UTC midnight, as ES requires for date-only forms)
and `YYYY-MM-DDTHH:MM:SSZ` (with optional `.mmm` milliseconds).  Any other
shape is `none` (NaN).  `Number(...)` is modelled for decimal numeric literals
(optional sign, integer/fraction digits, optional exponent); other strings are
`none` (NaN).  Values are exact — double rounding is not modelled. -/

def digitVal (c : Char) : Option Nat :=
  if '0' ≤ c && c ≤ '9' then some (c.toNat - 48) else none

def twoDigits (a b : Char) : Option Nat :=
  (digitVal a).bind fun x => (digitVal b).map fun y => 10 * x + y

def fourDigits (a b c d : Char) : Option Nat :=
  (twoDigits a b).bind fun x => (twoDigits c d).map fun y => 100 * x + y

def isLeapYear (y : Nat) : Bool :=
  y % 4 = 0 && (y % 100 ≠ 0 || y % 400 = 0)

def daysInMonth (y m : Nat) : Nat :=
  if m = 1 then 31 else if m = 2 then (if isLeapYear y then 29 else 28)
  else if m = 3 then 31 else if m = 4 then 30 else if m = 5 then 31
  else if m = 6 then 30 else if m = 7 then 31 else if m = 8 then 31
  else if m = 9 then 30 else if m = 10 then 31 else if m = 11 then 30
  else 31

/-- Days in the proleptic Gregorian calendar strictly before year `y`
(counting from year 1). -/
def daysBeforeYear (y : Nat) : Nat :=
  (y - 1) * 365 + (y - 1) / 4 - (y - 1) / 100 + (y - 1) / 400

/-- Days before month `m` (1-12) in year `y`. -/
def daysBeforeMonth (y m : Nat) : Nat :=
  (if m > 1 then 31 else 0) +
  (if m > 2 then (if isLeapYear y then 29 else 28) else 0) +
  (if m > 3 then 31 else 0) + (if m > 4 then 30 else 0) +
  (if m > 5 then 31 else 0) + (if m > 6 then 30 else 0) +
  (if m > 7 then 31 else 0) + (if m > 8 then 31 else 0) +
  (if m > 9 then 30 else 0) + (if m > 10 then 31 else 0) +
  (if m > 11 then 30 else 0)

/-- Absolute day number of a civil date (year ≥ 1). -/
def dayNumber (y m d : Nat) : Nat :=
  daysBeforeYear y + daysBeforeMonth y m + (d - 1)

/-- Milliseconds since the Unix epoch of a validated UTC civil date-time. -/
def civilMs (y mo d h mi s ms : Nat) : Option Int :=
  if 1 ≤ y && 1 ≤ mo && mo ≤ 12 && 1 ≤ d && d ≤ daysInMonth y mo &&
      h ≤ 23 && mi ≤ 59 && s ≤ 59 && ms ≤ 999 then
    some (((dayNumber y mo d : Int) - (dayNumber 1970 1 1 : Int)) * 86400000 +
      (h * 3600000 + mi * 60000 + s * 1000 + ms : Nat))
  else none

/-- Model of `Date.parse` on the ISO UTC profiles described above. -/
def jsDateParse (s : String) : Option Int :=
  match s.data with
  | [y1, y2, y3, y4, '-', a1, a2, '-', b1, b2] =>
      (fourDigits y1 y2 y3 y4).bind fun y =>
        (twoDigits a1 a2).bind fun mo =>
          (twoDigits b1 b2).bind fun d => civilMs y mo d 0 0 0 0
  | [y1, y2, y3, y4, '-', a1, a2, '-', b1, b2, 'T',
     h1, h2, ':', m1, m2, ':', s1, s2, 'Z'] =>
      (fourDigits y1 y2 y3 y4).bind fun y =>
        (twoDigits a1 a2).bind fun mo =>
          (twoDigits b1 b2).bind fun d =>
            (twoDigits h1 h2).bind fun h =>
              (twoDigits m1 m2).bind fun mi =>
                (twoDigits s1 s2).bind fun sec => civilMs y mo d h mi sec 0
  | [y1, y2, y3, y4, '-', a1, a2, '-', b1, b2, 'T',
     h1, h2, ':', m1, m2, ':', s1, s2, '.', f1, f2, f3, 'Z'] =>
      (fourDigits y1 y2 y3 y4).bind fun y =>
        (twoDigits a1 a2).bind fun mo =>
          (twoDigits b1 b2).bind fun d =>
            (twoDigits h1 h2).bind fun h =>
              (twoDigits m1 m2).bind fun mi =>
                (twoDigits s1 s2).bind fun sec =>
                  ((twoDigits f1 f2).bind fun fa =>
                    (digitVal f3).map fun fb => 10 * fa + fb).bind fun ms =>
                    civilMs y mo d h mi sec ms
  | _ => none

/-- JS `parseDateSafe` (src/lib/filters.mjs lines 230-234): falsy input is null,
unparseable input (NaN) is null. -/
def parseDateSafe (value : Option String) : Option Int :=
  match value with
  | none => none
  | some s => if s = "" then none else jsDateParse s

/-- JS `normaliseDateStart` (src/lib/filters.mjs lines 242-249). -/
def normaliseDateStart (value : String) : Option Int :=
  match jsDateParse (value ++ "T00:00:00Z") with
  | some parsed => some parsed
  | none => jsDateParse value

/-- JS `normaliseDateEnd` (src/lib/filters.mjs lines 251-258). -/
def normaliseDateEnd (value : String) : Option Int :=
  match jsDateParse (value ++ "T23:59:59Z") with
  | some parsed => some parsed
  | none => jsDateParse value

def natOfDigits (l : List Char) : Nat :=
  l.foldl (fun acc c => acc * 10 + (c.toNat - 48)) 0

def isDigitChar (c : Char) : Bool := '0' ≤ c && c ≤ '9'

/-- Decimal numeric literal body of `Number(...)`: optional sign, digits with
optional fraction, optional exponent; the whole input must be consumed. -/
def parseDecimalLiteral (l : List Char) : Option ℚ :=
  let (sign, l1) : ℚ × List Char :=
    match l with
    | '+' :: r => (1, r)
    | '-' :: r => (-1, r)
    | r => (1, r)
  let intDigits := l1.takeWhile isDigitChar
  let afterInt := l1.dropWhile isDigitChar
  let (fracDigits, afterFrac) : List Char × List Char :=
    match afterInt with
    | '.' :: r => (r.takeWhile isDigitChar, r.dropWhile isDigitChar)
    | r => ([], r)
  let hasDot : Bool := match afterInt with | '.' :: _ => true | _ => false
  if intDigits = [] && (!hasDot || fracDigits = []) then none
  else
    let mantissa : ℚ :=
      (natOfDigits intDigits : ℚ) +
        (natOfDigits fracDigits : ℚ) / ((10 : ℚ) ^ fracDigits.length)
    match afterFrac with
    | [] => some (sign * mantissa)
    | e :: r =>
        if e = 'e' || e = 'E' then
          let (esign, r1) : Int × List Char :=
            match r with
            | '+' :: t => (1, t)
            | '-' :: t => (-1, t)
            | t => (1, t)
          let expDigits := r1.takeWhile isDigitChar
          let afterExp := r1.dropWhile isDigitChar
          if expDigits = [] || afterExp ≠ [] then none
          else some (sign * mantissa * (10 : ℚ) ^ (esign * (natOfDigits expDigits : Int)))
        else none

/-- Model of `Number(value)` on strings: trim JS whitespace, empty means 0,
otherwise a decimal numeric literal; anything else is NaN (`none`). -/
def jsNumber (s : String) : Option ℚ :=
  let t := ((s.data.dropWhile Char.isWhitespace).reverse.dropWhile
    Char.isWhitespace).reverse
  if t = [] then some 0 else parseDecimalLiteral t

/-- JS `parseNumberSafe` (src/lib/filters.mjs lines 236-240): `null`/`undefined`/
`""` give null; `Number(value)` giving NaN gives null. -/
def parseNumberSafe (value : JNum) : Option ℚ :=
  match value with
  | .null => none
  | .num q => some q
  | .str s => if s = "" then none else jsNumber s

/-! ## src/lib/filters.mjs — applyFilters -/

/-- The criteria object destructured by `applyFilters` (src/lib/filters.mjs
lines 30-43), with the JS defaults. -/
structure FilterCriteria where
  keywords : List String := []
  types : List String := []
  statuses : List String := []
  procurementStages : List String := []
  dateFrom : Option String := none
  dateTo : Option String := none
  valueFrom : JNum := .null
  valueTo : JNum := .null
  sources : List String := []
deriving DecidableEq, Repr

/-- JS `kw = keywords.map(v => v.toLowerCase()).filter(Boolean)` (line 44). -/
def kwOf (c : FilterCriteria) : List String :=
  (c.keywords.map jsToLower).filter (fun v => v ≠ "")

/-- JS `typeSet` (line 45); modelled as the list of its (normalised, non-empty)
members — only membership is ever queried. -/
def typeSetOf (c : FilterCriteria) : List String :=
  (c.types.map normaliseContractsFinderType).filter (fun v => v ≠ "")

/-- JS `statusSet` (line 46): lowercased, falsy members dropped. -/
def statusSetOf (c : FilterCriteria) : List String :=
  (c.statuses.map jsToLower).filter (fun v => v ≠ "")

/-- JS `stageSet` (line 47). -/
def stageSetOf (c : FilterCriteria) : List String :=
  (c.procurementStages.map (fun v => normaliseProcurementStageToken (some v))).filter
    (fun v => v ≠ "")

/-- JS `minValue` (line 48): a number is used as-is, a truthy non-number goes
through `Number(...)` (NaN modelled as `none`), otherwise null. -/
def minValueOf (c : FilterCriteria) : Option ℚ :=
  match c.valueFrom with
  | .num q => some q
  | .str s => if s ≠ "" then jsNumber s else none
  | .null => none

/-- JS `maxValue` (line 49). -/
def maxValueOf (c : FilterCriteria) : Option ℚ :=
  match c.valueTo with
  | .num q => some q
  | .str s => if s ≠ "" then jsNumber s else none
  | .null => none

/-- JS `fromTime = dateFrom ? normaliseDateStart(dateFrom) : null` (line 51). -/
def fromTimeOf (c : FilterCriteria) : Option Int :=
  match c.dateFrom with
  | none => none
  | some s => if s ≠ "" then normaliseDateStart s else none

/-- JS `toTime = dateTo ? normaliseDateEnd(dateTo) : null` (line 52). -/
def toTimeOf (c : FilterCriteria) : Option Int :=
  match c.dateTo with
  | none => none
  | some s => if s ≠ "" then normaliseDateEnd s else none

/-- JS `sourceSet` (lines 53-62): uppercase, drop empties, and expand either of
"FTS"/"TD" to both tags. -/
def sourceSetOf (c : FilterCriteria) : List String :=
  (c.sources.map jsToUpper).flatMap (fun value =>
    if value = "" then []
    else if value = "FTS" then ["FTS", "TD"]
    else if value = "TD" then ["FTS", "TD"]
    else [value])

/-- JS numeric truthiness of a nullable timestamp (`null` and `0` falsy;
NaN is already `none`). -/
def intOptTruthy (t : Option Int) : Bool :=
  match t with
  | none => false
  | some v => v ≠ 0

/-- JS `String(notice.source || "").toUpperCase()` (line 65). -/
def noticeSourceOf (notice : Notice) : String := jsToUpper notice.source

/-- JS `isContractsFinder` (line 66). -/
def isContractsFinder (notice : Notice) : Bool :=
  noticeSourceOf notice = "CF" || noticeSourceOf notice = "CONTRACTS FINDER"

/-- JS `isFindATender` (line 67). -/
def isFindATender (notice : Notice) : Bool :=
  noticeSourceOf notice = "FTS" || noticeSourceOf notice = "TD" ||
    noticeSourceOf notice = "FIND A TENDER"

/-- JS `buildSearchableBlob` (src/lib/filters.mjs lines 159-172). -/
def buildSearchableBlob (notice : Notice) : String :=
  jsToLower (String.intercalate " "
    [orEmpty notice.title, orEmpty notice.description, orEmpty notice.cpvCodes,
     orEmpty notice.organisationName, orEmpty notice.organisationAddress,
     orEmpty notice.regionText, orEmpty notice.region,
     orEmpty notice.noticeIdentifier])

/-- JS `matchesAuthorityKeywords` (src/lib/filters.mjs lines 267-277). -/
def matchesAuthorityKeywords (notice : Notice) : Bool :=
  [notice.organisationName, notice.organisationAddress, notice.title,
   notice.description, notice.regionText, notice.region].any
    containsAuthorityKeyword

/-- Source clause of the filter predicate (line 69). -/
def sourceOk (c : FilterCriteria) (notice : Notice) : Bool :=
  sourceSetOf c = [] || (sourceSetOf c).contains (noticeSourceOf notice)

/-- Stage clause (lines 71-75): drop only when the derived stage normalises to
a token outside the requested set; an un-normalisable stage passes. -/
def stageOk (c : FilterCriteria) (notice : Notice) : Bool :=
  if stageSetOf c = [] then true
  else
    let stageLabel := deriveProcurementStage notice
    let stageToken := normaliseProcurementStageToken (some stageLabel)
    stageToken = "" || (stageSetOf c).contains stageToken

/-- Type clause (lines 77-80): only source-A (Contracts Finder) notices are
checked. -/
def typeOk (c : FilterCriteria) (notice : Notice) : Bool :=
  if typeSetOf c ≠ [] && isContractsFinder notice then
    let noteType := normaliseContractsFinderType (orEmpty notice.noticeType)
    noteType ≠ "" && (typeSetOf c).contains noteType
  else true

/-- Status clause (lines 82-85): only source-A notices are checked. -/
def statusOk (c : FilterCriteria) (notice : Notice) : Bool :=
  if statusSetOf c ≠ [] && isContractsFinder notice then
    let noteStatus := normaliseToken (orEmpty notice.noticeStatus)
    noteStatus ≠ "" && (statusSetOf c).contains noteStatus
  else true

/-- Keyword clause (lines 87-91): only source-B (Find a Tender) notices with a
non-empty processed keyword list are checked; they must match the blob AND the
Authority-Match Filter. -/
def keywordOk (c : FilterCriteria) (notice : Notice) : Bool :=
  if isFindATender notice && kwOf c ≠ [] then
    (kwOf c).any (fun token => jsIncludes (buildSearchableBlob notice) token) &&
      matchesAuthorityKeywords notice
  else true

/-- The candidate date (lines 94-100): `publishedDate`, else the first
parseable of `lastNotifiableUpdate`, `awardedDate`, `deadlineDate`. -/
def dateCandidate (notice : Notice) : Option Int :=
  match parseDateSafe notice.publishedDate with
  | some v => some v
  | none =>
      ([notice.lastNotifiableUpdate, notice.awardedDate, notice.deadlineDate].filterMap
        parseDateSafe).head?

/-- Date clause (lines 93-104).  Note the JS truthiness tests `fromTime ||
toTime`, `fromTime && ...`, `toTime && ...`: a bound equal to timestamp 0 is
falsy and therefore inert. -/
def dateOk (c : FilterCriteria) (notice : Notice) : Bool :=
  if intOptTruthy (fromTimeOf c) || intOptTruthy (toTimeOf c) then
    match dateCandidate notice with
    | none => false
    | some candidate =>
        !(intOptTruthy (fromTimeOf c) && candidate < (fromTimeOf c).getD 0) &&
          !(intOptTruthy (toTimeOf c) && candidate > (toTimeOf c).getD 0)
  else true

/-- The numeric values collected for the value clause (lines 107-109). -/
def numericValuesOf (notice : Notice) : List ℚ :=
  [notice.valueLow, notice.valueHigh, notice.awardedValue].filterMap parseNumberSafe

/-- JS `withinRange` test for one collected value (lines 112-116). -/
def withinValueRange (mn mx : Option ℚ) (current : ℚ) : Bool :=
  !(mn.isSome && current < mn.getD 0) && !(mx.isSome && current > mx.getD 0)

/-- Value clause (lines 106-119): with a bound given, a notice with collected
values passes when any of them is within range; with no collected values it
passes. -/
def valueOk (c : FilterCriteria) (notice : Notice) : Bool :=
  if (minValueOf c).isSome || (maxValueOf c).isSome then
    let numericValues := numericValuesOf notice
    if numericValues ≠ [] then
      numericValues.any (withinValueRange (minValueOf c) (maxValueOf c))
    else true
  else true

/-- The per-notice predicate of `applyFilters` (src/lib/filters.mjs lines
64-122): the early-return chain as a conjunction of the clause functions. -/
def noticePasses (c : FilterCriteria) (notice : Notice) : Bool :=
  sourceOk c notice && stageOk c notice && typeOk c notice &&
    statusOk c notice && keywordOk c notice && dateOk c notice && valueOk c notice

/-- JS `applyFilters` (src/lib/filters.mjs lines 30-123). -/
def applyFilters (notices : List Notice) (c : FilterCriteria) : List Notice :=
  notices.filter (noticePasses c)

/-! ## src/lib/fts.mjs — release package projection

The OCDS release-package documents are modelled structurally: every field the
projection reads is present as an optional field.  JSON numbers are exact
rationals; coordinate components are modelled as already-stringified values
(only string interpolation is ever applied to them). -/

structure JsValueAmount where
  amount : Option ℚ := none
  minimumAmount : Option ℚ := none
  amountNet : Option ℚ := none
  maximumAmount : Option ℚ := none
  amountGross : Option ℚ := none
deriving DecidableEq, Repr

structure BudgetBreakdownItem where
  amount : Option JsValueAmount := none
deriving DecidableEq, Repr

structure JsBudget where
  budgetBreakdown : Option (List BudgetBreakdownItem) := none
  amount : Option JsValueAmount := none
deriving DecidableEq, Repr

structure JsPlanning where
  budget : Option JsBudget := none
deriving DecidableEq, Repr

structure SupplierDetails where
  scale : Option String := none
deriving DecidableEq, Repr

structure JsSupplier where
  name : Option String := none
  details : Option SupplierDetails := none
deriving DecidableEq, Repr

structure JsDocument where
  noticeType : Option String := none
deriving DecidableEq, Repr

structure JsAward where
  status : Option String := none
  value : Option JsValueAmount := none
  date : Option String := none
  suppliers : Option (List JsSupplier) := none
deriving DecidableEq, Repr

structure JsContract where
  status : Option String := none
  value : Option JsValueAmount := none
  dateSigned : Option String := none
  period : Option JsPeriod := none
  documents : Option (List JsDocument) := none
deriving DecidableEq, Repr

inductive JsCoordinates where
  | str (s : String) : JsCoordinates
  | arr (xs : List String) : JsCoordinates
  | obj (latitude lat longitude lon : Option String) : JsCoordinates
deriving DecidableEq, Repr

structure JsAddress where
  streetAddress : Option String := none
  locality : Option String := none
  region : Option String := none
  postalCode : Option String := none
  countryName : Option String := none
  description : Option String := none
  coordinates : Option JsCoordinates := none
deriving DecidableEq, Repr

structure JsIdentifier where
  legalName : Option String := none
deriving DecidableEq, Repr

structure JsParty where
  id : Option String := none
  name : Option String := none
  roles : Option (List String) := none
  address : Option JsAddress := none
  identifier : Option JsIdentifier := none
deriving DecidableEq, Repr

structure JsClassification where
  id : Option String := none
  description : Option String := none
deriving DecidableEq, Repr

structure JsDeliveryAddress where
  region : Option String := none
  description : Option String := none
deriving DecidableEq, Repr

structure JsGeometry where
  coordinates : Option JsCoordinates := none
deriving DecidableEq, Repr

structure JsLocation where
  description : Option String := none
  address : Option JsAddress := none
  geometry : Option JsGeometry := none
deriving DecidableEq, Repr

structure JsItem where
  classification : Option JsClassification := none
  additionalClassifications : Option (List JsClassification) := none
  deliveryAddresses : Option (List JsDeliveryAddress) := none
  deliveryLocation : Option JsLocation := none
deriving DecidableEq, Repr

structure JsTender where
  title : Option String := none
  description : Option String := none
  status : Option String := none
  procedureType : Option String := none
  value : Option JsValueAmount := none
  tenderPeriod : Option JsPeriod := none
  enquiryPeriod : Option JsPeriod := none
  classification : Option JsClassification := none
  items : Option (List JsItem) := none
  suitability : Option (List String) := none
deriving DecidableEq, Repr

structure JsRelease where
  id : Option String := none
  date : Option String := none
  tag : Option (List String) := none
  title : Option String := none
  description : Option String := none
  tender : Option JsTender := none
  planning : Option JsPlanning := none
  awards : Option (List JsAward) := none
  contracts : Option (List JsContract) := none
  parties : Option (List JsParty) := none
deriving DecidableEq, Repr

structure ReleasePackage where
  releases : Option (List JsRelease) := none
deriving DecidableEq, Repr

/-- The base record produced by the Find a Tender listing call
(src/lib/fts.mjs lines 350-364); every call site filters for a truthy `id`. -/
structure BaseRecord where
  id : String := ""
  source : String := "FTS"
  link : Option String := none
  publishedDate : Option String := none
  noticeStatus : Option String := none
  noticeType : Option String := none
  noticeIdentifier : Option String := none
  parentId : Option String := none
  lastNotifiableUpdate : Option String := none
  organisationAddress : Option String := none
deriving DecidableEq, Repr

/-- JS `{...base}` viewed as a Notice: the base fields are present, every other
notice field is absent (`normalizeNotice` is a shallow copy). -/
def baseToNotice (base : BaseRecord) : Notice :=
  { id := base.id
    source := base.source
    link := base.link
    publishedDate := base.publishedDate
    noticeStatus := base.noticeStatus
    noticeType := base.noticeType
    noticeIdentifier := base.noticeIdentifier
    parentId := base.parentId
    lastNotifiableUpdate := base.lastNotifiableUpdate
    organisationAddress := base.organisationAddress }

/-- JS `Date.parse(a.date || "") || 0` — the sort key of `selectRelevantRelease`
(src/lib/fts.mjs lines 540-544). -/
def releaseKey (r : JsRelease) : Int :=
  match jsDateParse (orEmpty r.date) with
  | none => 0
  | some v => v

/-- Earliest-indexed release with the maximal date key: the head of the
stable descending sort `[...releases].sort((a, b) => dateB - dateA)[0]`
(a stable descending sort puts the first-occurring maximum first). -/
def mostRecentRelease : List JsRelease → Option JsRelease
  | [] => none
  | r :: rest =>
      match mostRecentRelease rest with
      | none => some r
      | some b => if releaseKey b > releaseKey r then some b else some r

/-- JS `selectRelevantRelease` (src/lib/fts.mjs lines 533-546). -/
def selectRelevantRelease (pkg : Option ReleasePackage) (noticeId : String) :
    Option JsRelease :=
  match pkg with
  | none => none
  | some p =>
      match p.releases with
      | none => none
      | some rs =>
          if rs.length = 0 then none
          else if noticeId = "" then rs.head?
          else
            match rs.find? (fun release => release.id = some noticeId) with
            | some byId => some byId
            | none => mostRecentRelease rs

/-- JS `x || null` for one nullable string (falsy collapses to null). -/
def truthyOrNull (v : Option String) : Option String :=
  if optStrTruthy v then v else none

/-- JS `String.trim()` (whitespace model). -/
def trimStr (s : String) : String :=
  String.mk (((s.data.dropWhile Char.isWhitespace).reverse.dropWhile
    Char.isWhitespace).reverse)

/-- Insertion-ordered `Set` contents: first occurrences, in order. -/
def dedupFirst (l : List String) : List String :=
  l.foldl (fun acc s => if acc.contains s then acc else acc ++ [s]) []

/-- A nullable rational as a notice field value. -/
def jnumOfOpt : Option ℚ → JNum
  | none => .null
  | some q => .num q

/-- JS `extractBudgetValues` (src/lib/fts.mjs lines 548-562); the call site passes
`release.planning || {}`, so the non-object guard is unreachable here. -/
def extractBudgetValues (planning : JsPlanning) : Option JsValueAmount :=
  let budgeting := planning.budget.getD {}
  match budgeting.budgetBreakdown with
  | some breakdown =>
      if breakdown.length > 0 then
        (breakdown.find? (fun item => item.amount.isSome)).bind (fun first => first.amount)
      else if budgeting.amount.isSome then budgeting.amount
      else none
  | none =>
      if budgeting.amount.isSome then budgeting.amount else none

/-- JS `selectAward` (src/lib/fts.mjs lines 564-568). -/
def selectAward (awards : Option (List JsAward)) : Option JsAward :=
  match awards with
  | none => none
  | some l =>
      match l.find? (fun item =>
          optStrTruthy item.status && jsToLower (orEmpty item.status) = "active") with
      | some active => some active
      | none => l.head?

/-- JS `selectContract` (src/lib/fts.mjs lines 570-574). -/
def selectContract (contracts : Option (List JsContract)) : Option JsContract :=
  match contracts with
  | none => none
  | some l =>
      match l.find? (fun item =>
          optStrTruthy item.status && jsToLower (orEmpty item.status) = "active") with
      | some active => some active
      | none => l.head?

/-- JS `selectBuyer` (src/lib/fts.mjs lines 576-582). -/
def selectBuyer (parties : Option (List JsParty)) : Option JsParty :=
  match parties with
  | none => none
  | some l =>
      l.find? (fun party =>
        match party.roles with
        | some roles => roles.any (fun role => jsToLower role = "buyer")
        | none => false)

/-- JS `extractSupplierNames` (src/lib/fts.mjs lines 584-589). -/
def extractSupplierNames (awards : Option (List JsAward)) : Option String :=
  match awards with
  | none => none
  | some l =>
      let names := ((l.map (fun award => award.suppliers.getD [])).flatten.filterMap
        (fun supplier => supplier.name)).filter (fun n => n ≠ "")
      if names = [] then none
      else some (String.intercalate ", " (dedupFirst names))

structure CpvInfo where
  primaryCode : Option String := none
  extendedCodes : Option String := none
  primaryDescription : Option String := none
  extendedDescriptions : Option String := none
deriving DecidableEq, Repr

/-- The truthy `id`s contributed by one `registerClassifier` call. -/
def classifierIds (cl : Option JsClassification) : List String :=
  match cl with
  | none => []
  | some c => match c.id with
    | some s => if s ≠ "" then [s] else []
    | none => []

/-- The truthy descriptions contributed by one `registerClassifier` call. -/
def classifierDescriptions (cl : Option JsClassification) : List String :=
  match cl with
  | none => []
  | some c => match c.description with
    | some s => if s ≠ "" then [s] else []
    | none => []

/-- JS `extractCpvInformation` (src/lib/fts.mjs lines 591-622). -/
def extractCpvInformation (tender : JsTender) : CpvInfo :=
  let order : List (Option JsClassification) :=
    [tender.classification] ++
      ((tender.items.getD []).map (fun item =>
        [item.classification] ++
          (item.additionalClassifications.getD []).map (fun c => some c))).flatten
  let codes := dedupFirst ((order.map classifierIds).flatten)
  let descriptions := dedupFirst ((order.map classifierDescriptions).flatten)
  { primaryCode := codes.head?
    extendedCodes :=
      if codes.tail ≠ [] then some (String.intercalate " " codes.tail) else none
    primaryDescription := descriptions.head?
    extendedDescriptions :=
      if descriptions.tail ≠ [] then some (String.intercalate " | " descriptions.tail)
      else none }

/-- JS `formatCoordinates` (src/lib/fts.mjs lines 691-707); coordinate components
are modelled as already-stringified values. -/
def formatCoordinates (value : Option JsCoordinates) : Option String :=
  match value with
  | none => none
  | some (.str s) => if s = "" then none else some s
  | some (.arr xs) =>
      match xs with
      | first :: second :: _ => some (first ++ "," ++ second)
      | _ => none
  | some (.obj latitude lat longitude lon) =>
      let la := match latitude with | some x => some x | none => lat
      let lo := match longitude with | some x => some x | none => lon
      match la, lo with
      | some x, some y => some (x ++ "," ++ y)
      | _, _ => none

/-- JS `formatAddress` (src/lib/fts.mjs lines 709-722). -/
def formatAddress (address : Option JsAddress) : Option String :=
  match address with
  | none => none
  | some a =>
      let parts := ([a.streetAddress, a.locality, a.region, a.postalCode,
        a.countryName, a.description].map (fun part =>
          match part with
          | some s => trimStr s
          | none => "")).filter (fun p => p ≠ "")
      if parts ≠ [] then some (String.intercalate ", " parts) else none

/-- One entry of the `locations` accumulator in
`extractRegionalInformation`. -/
inductive LocEntry where
  | text (s : String) : LocEntry
  | coords (s : String) : LocEntry
  | regCode (s : String) : LocEntry
deriving DecidableEq, Repr

/-- JS `addLocation` (src/lib/fts.mjs lines 627-648): the entries pushed for one
delivery location, in push order. -/
def addLocation (location : Option JsLocation) : List LocEntry :=
  match location with
  | none => []
  | some loc =>
      (match loc.description with
        | some s => if s ≠ "" then [LocEntry.text s] else []
        | none => []) ++
      (match loc.address with
        | none => []
        | some addr =>
            (let parts := [addr.locality, addr.region, addr.description].filterMap
              (fun p => match p with
                | some s => if s ≠ "" then some s else none
                | none => none)
             if parts ≠ [] then [LocEntry.text (String.intercalate ", " parts)] else []) ++
            (match formatCoordinates addr.coordinates with
              | some cs => if cs ≠ "" then [LocEntry.coords cs] else []
              | none => [])) ++
      (match loc.geometry with
        | none => []
        | some g =>
            match formatCoordinates g.coordinates with
            | some cs => if cs ≠ "" then [LocEntry.coords cs] else []
            | none => [])

structure RegionalInfo where
  regionCode : Option String := none
  regionText : Option String := none
  coordinates : Option String := none
deriving DecidableEq, Repr

/-- JS `extractRegionalInformation` (src/lib/fts.mjs lines 624-666). -/
def extractRegionalInformation (tender : JsTender) (buyer : Option JsParty) :
    RegionalInfo :=
  let locations : List LocEntry :=
    ((tender.items.getD []).map (fun item =>
      ((item.deliveryAddresses.getD []).map (fun address =>
        (match address.region with
          | some s => if s ≠ "" then [LocEntry.regCode s] else []
          | none => []) ++
        (match address.description with
          | some s => if s ≠ "" then [LocEntry.text s] else []
          | none => []))).flatten ++
      (match item.deliveryLocation with
        | some loc => addLocation (some loc)
        | none => []))).flatten
  let buyerAddress := buyer.bind (fun b => b.address)
  { regionCode :=
      orStrNull (locations.filterMap (fun e =>
        match e with | .regCode s => some s | _ => none)).head?
        (buyerAddress.bind (fun a => a.region))
    regionText :=
      orStrNull (locations.filterMap (fun e =>
        match e with | .text s => some s | _ => none)).head?
        (buyerAddress.bind (fun a => a.countryName))
    coordinates :=
      truthyOrNull (locations.filterMap (fun e =>
        match e with | .coords s => some s | _ => none)).head? }

structure SuitabilityFlags where
  sme : Option Bool := none
  vcse : Option Bool := none
deriving DecidableEq, Repr

/-- JS `extractSuitabilityFlags` (src/lib/fts.mjs lines 674-689). -/
def extractSuitabilityFlags (tender : JsTender) : SuitabilityFlags :=
  let flags := tender.suitability.getD []
  if flags = [] then {}
  else
    let tokens := (flags.map jsToLower).filter (fun t => t ≠ "")
    { sme := if tokens.any (fun t => jsIncludes t "sme") then some true else none
      vcse := if tokens.any (fun t =>
          jsIncludes t "vcse" || jsIncludes t "voluntary") then some true else none }

structure SupplierFlags where
  awardedToSme : Option Bool := none
  awardedToVcse : Option Bool := none
deriving DecidableEq, Repr

/-- JS `extractSupplierFlags` (src/lib/fts.mjs lines 724-738). -/
def extractSupplierFlags (awards : Option (List JsAward)) : SupplierFlags :=
  match awards with
  | none => {}
  | some l =>
      let scales := dedupFirst
        ((((l.map (fun award => award.suppliers.getD [])).flatten.filterMap
          (fun supplier => supplier.details.bind (fun d => d.scale))).filter
            (fun s => s ≠ "")).map jsToLower)
      if scales = [] then {}
      else
        { awardedToSme := some (scales.contains "sme" || scales.contains "small")
          awardedToVcse := some (scales.contains "vcse" || scales.contains "thirdsector") }

/-- JS `determineNoticeType` (src/lib/fts.mjs lines 740-750). -/
def determineNoticeType (release : JsRelease) (contract : Option JsContract)
    (tender : JsTender) (fallback : Option String) : Option String :=
  let fromDoc : Option String :=
    match contract with
    | none => none
    | some con =>
        match con.documents with
        | none => none
        | some docs =>
            (docs.find? (fun d => optStrTruthy d.noticeType)).bind
              (fun doc => doc.noticeType)
  match fromDoc with
  | some s => some s
  | none =>
      let fromTag : Option String :=
        match release.tag with
        | some tags => if tags.length ≠ 0 then some (String.intercalate ", " tags) else none
        | none => none
      match fromTag with
      | some s => some s
      | none =>
          if optStrTruthy tender.procedureType then tender.procedureType
          else truthyOrNull fallback

/-- JS `determineNoticeStatus` (src/lib/fts.mjs lines 752-756). -/
def determineNoticeStatus (tender : JsTender) (award : Option JsAward)
    (fallback : Option String) : Option String :=
  if optStrTruthy tender.status then tender.status
  else if optStrTruthy (award.bind (fun a => a.status)) then award.bind (fun a => a.status)
  else truthyOrNull fallback

/-- JS `mapReleasePackageToNotice` (src/lib/fts.mjs lines 464-527); when no
release is selected the base record is returned unchanged (shallow copy by
`normalizeNotice`). -/
def mapReleasePackageToNotice (base : BaseRecord) (pkg : Option ReleasePackage) :
    Notice :=
  match selectRelevantRelease pkg base.id with
  | none => baseToNotice base
  | some release =>
      let tender := release.tender.getD {}
      let planning := release.planning.getD {}
      let budgets := extractBudgetValues planning
      let tenderValue : JsValueAmount :=
        match tender.value with
        | some v => v
        | none => budgets.getD {}
      let periods := tender.tenderPeriod.getD {}
      let enquiryPeriod := tender.enquiryPeriod.getD {}
      let award := selectAward release.awards
      let contract := selectContract release.contracts
      let buyer := selectBuyer release.parties
      let supplierNames := extractSupplierNames release.awards
      let organisationAddress := formatAddress (buyer.bind (fun b => b.address))
      let cpvInfo := extractCpvInformation tender
      let regionalInfo := extractRegionalInformation tender buyer
      let suitability := extractSuitabilityFlags tender
      let supplierFlags := extractSupplierFlags release.awards
      { baseToNotice base with
        source := "FTS"
        link := orStr base.link
          (if base.id ≠ "" then
            some ("https://www.find-tender.service.gov.uk/Notice/" ++ base.id)
          else none)
        title := orStrNull tender.title release.title
        description := orStrNull tender.description release.description
        noticeType := determineNoticeType release contract tender base.noticeType
        noticeStatus := determineNoticeStatus tender award base.noticeStatus
        organisationName := truthyOrNull (buyer.bind (fun b => b.name))
        organisationAddress := organisationAddress
        noticeIdentifier := orStrNull base.noticeIdentifier release.id
        cpvCodes := cpvInfo.primaryCode
        cpvCodesExtended := cpvInfo.extendedCodes
        cpvDescription := cpvInfo.primaryDescription
        cpvDescriptionExpanded := cpvInfo.extendedDescriptions
        valueLow := jnumOfOpt (tenderValue.amount.orElse (fun _ =>
          tenderValue.minimumAmount.orElse (fun _ => tenderValue.amountNet)))
        valueHigh := jnumOfOpt tenderValue.maximumAmount
        awardedValue := jnumOfOpt
          (((contract.bind (fun con => con.value)).bind (fun v => v.amount)).orElse
            (fun _ =>
              (((contract.bind (fun con => con.value)).bind
                (fun v => v.amountGross)).orElse (fun _ =>
                  (award.bind (fun a => a.value)).bind (fun v => v.amount)))))
        awardedSupplier := supplierNames
        publishedDate := orStrNull release.date base.publishedDate
        deadlineDate := orStrNull periods.endDate enquiryPeriod.endDate
        awardedDate := orStrNull (award.bind (fun a => a.date))
          (contract.bind (fun con => con.dateSigned))
        approachMarketDate := orStrNull periods.startDate enquiryPeriod.startDate
        start := truthyOrNull ((contract.bind (fun con => con.period)).bind
          (fun p => p.startDate))
        end_ := truthyOrNull ((contract.bind (fun con => con.period)).bind
          (fun p => p.endDate))
        postcode := truthyOrNull ((buyer.bind (fun b => b.address)).bind
          (fun a => a.postalCode))
        region := regionalInfo.regionCode
        regionText := regionalInfo.regionText
        coordinates := regionalInfo.coordinates
        isSuitableForSme := suitability.sme
        isSuitableForVco := suitability.vcse
        awardedToSme := supplierFlags.awardedToSme
        awardedToVcse := supplierFlags.awardedToVcse
        lastNotifiableUpdate := orStrNull release.date base.lastNotifiableUpdate }

/-! ## src/app/api/search/route.ts — Entity Decoder

`decodeHtmlEntities` runs three sequential global regex replaces (hex refs,
decimal refs, named refs).  Text is modelled as a list of code points so that
lone surrogates produced by `String.fromCodePoint` are representable.
`String.fromCodePoint` throws `RangeError` for a code point above 0x10FFFF;
this surfaces as `Except.error`.  Each scanner carries a fuel argument equal
to the input length (each step consumes at least one code point), keeping the
recursion structural. -/

def strCps (s : String) : List Nat := s.data.map Char.toNat

def isHexDigitCp (n : Nat) : Bool :=
  (48 ≤ n && n ≤ 57) || (97 ≤ n && n ≤ 102) || (65 ≤ n && n ≤ 70)

def isDecDigitCp (n : Nat) : Bool := 48 ≤ n && n ≤ 57

def isAsciiLetterCp (n : Nat) : Bool := (65 ≤ n && n ≤ 90) || (97 ≤ n && n ≤ 122)

def hexDigitValue (n : Nat) : Nat :=
  if 48 ≤ n && n ≤ 57 then n - 48
  else if 97 ≤ n && n ≤ 102 then n - 87
  else n - 55

def hexValue (digits : List Nat) : Nat :=
  digits.foldl (fun acc d => acc * 16 + hexDigitValue d) 0

def decValue (digits : List Nat) : Nat :=
  digits.foldl (fun acc d => acc * 10 + (d - 48)) 0

/-- JS `Number.isFinite` after `Number.parseInt`: a double overflows to Infinity
at 2^1024 (the exact rounding boundary a few ulps below is immaterial here). -/
def isFiniteNum (n : Nat) : Bool := n < 2 ^ 1024

/-- JS `String.fromCodePoint(cp)`, or `RangeError`. -/
def fromCodePoint (cp : Nat) : Except Unit Nat :=
  if cp ≤ 1114111 then .ok cp else .error ()

/-- First replace: `/&#x([0-9a-f]+);/gi`. -/
def hexPassGo : Nat → List Nat → Except Unit (List Nat)
  | 0, l => .ok l
  | _ + 1, [] => .ok []
  | fuel + 1, c :: rest =>
      if c = 38 then
        match rest with
        | 35 :: x :: rest2 =>
            if x = 120 || x = 88 then
              match rest2.takeWhile isHexDigitCp, rest2.dropWhile isHexDigitCp with
              | d :: ds, 59 :: tailAfter =>
                  let codePoint := hexValue (d :: ds)
                  if isFiniteNum codePoint then
                    (fromCodePoint codePoint).bind (fun cp =>
                      (hexPassGo fuel tailAfter).map (fun out => cp :: out))
                  else
                    (hexPassGo fuel tailAfter).map (fun out =>
                      38 :: 35 :: x :: ((d :: ds) ++ (59 :: out)))
              | _, _ => (hexPassGo fuel rest).map (fun out => 38 :: out)
            else (hexPassGo fuel rest).map (fun out => 38 :: out)
        | _ => (hexPassGo fuel rest).map (fun out => 38 :: out)
      else (hexPassGo fuel rest).map (fun out => c :: out)

/-- Second replace: `/&#(\d+);/g`. -/
def decPassGo : Nat → List Nat → Except Unit (List Nat)
  | 0, l => .ok l
  | _ + 1, [] => .ok []
  | fuel + 1, c :: rest =>
      if c = 38 then
        match rest with
        | 35 :: rest2 =>
            match rest2.takeWhile isDecDigitCp, rest2.dropWhile isDecDigitCp with
            | d :: ds, 59 :: tailAfter =>
                let codePoint := decValue (d :: ds)
                if isFiniteNum codePoint then
                  (fromCodePoint codePoint).bind (fun cp =>
                    (decPassGo fuel tailAfter).map (fun out => cp :: out))
                else
                  (decPassGo fuel tailAfter).map (fun out =>
                    38 :: 35 :: ((d :: ds) ++ (59 :: out)))
            | _, _ => (decPassGo fuel rest).map (fun out => 38 :: out)
        | _ => (decPassGo fuel rest).map (fun out => 38 :: out)
      else (decPassGo fuel rest).map (fun out => c :: out)

/-- JS `NAMED_HTML_ENTITIES` lookup on the lowercased name
(src/app/api/search/route.ts lines 6-13; `nbsp` maps to a plain space). -/
def namedEntityValue (lowered : List Nat) : Option Nat :=
  if lowered = strCps "amp" then some 38
  else if lowered = strCps "lt" then some 60
  else if lowered = strCps "gt" then some 62
  else if lowered = strCps "quot" then some 34
  else if lowered = strCps "apos" then some 39
  else if lowered = strCps "nbsp" then some 32
  else none

def lowerCp (n : Nat) : Nat := if 65 ≤ n && n ≤ 90 then n + 32 else n

/-- Third replace: `/&([a-z]+);/gi`; unknown names are reconstructed
unchanged. -/
def namedPassGo : Nat → List Nat → Except Unit (List Nat)
  | 0, l => .ok l
  | _ + 1, [] => .ok []
  | fuel + 1, c :: rest =>
      if c = 38 then
        match rest.takeWhile isAsciiLetterCp, rest.dropWhile isAsciiLetterCp with
        | d :: ds, 59 :: tailAfter =>
            (match namedEntityValue ((d :: ds).map lowerCp) with
             | some mapped =>
                 (namedPassGo fuel tailAfter).map (fun out => mapped :: out)
             | none =>
                 (namedPassGo fuel tailAfter).map (fun out =>
                   38 :: ((d :: ds) ++ (59 :: out))))
        | _, _ => (namedPassGo fuel rest).map (fun out => 38 :: out)
      else (namedPassGo fuel rest).map (fun out => c :: out)

/-- JS `decodeHtmlEntities` (src/app/api/search/route.ts lines 15-32). -/
def decodeHtmlEntities (value : Option String) : Except Unit (Option (List Nat)) :=
  match value with
  | none => .ok none
  | some v =>
      if v = "" then .ok (some [])
      else
        let cps := strCps v
        (hexPassGo cps.length cps).bind (fun r1 =>
          (decPassGo r1.length r1).bind (fun r2 =>
            (namedPassGo r2.length r2).map (fun r3 => some r3)))

/-! ## Stage Classifier lemmas and claims -/

theorem resolveStageToken_mem (values : List String) :
    resolveStageToken values = "" ∨ resolveStageToken values ∈ stageTokens := by
  unfold resolveStageToken
  cases hfind : STAGE_MATCHERS.find? (fun m =>
      values.any (fun candidate => m.patterns.any (fun pattern =>
        jsIncludes candidate pattern))) with
  | none => exact Or.inl rfl
  | some m =>
      right
      have hm := List.mem_of_find?_eq_some hfind
      simp only [STAGE_MATCHERS, List.mem_cons, List.not_mem_nil, or_false] at hm
      rcases hm with rfl | rfl | rfl | rfl | rfl | rfl <;> decide

theorem resolveStageToken_eq_empty_of_subset {l l' : List String}
    (hsub : ∀ x ∈ l', x ∈ l) (h : resolveStageToken l = "") :
    resolveStageToken l' = "" := by
  unfold resolveStageToken at h ⊢
  cases hfind : STAGE_MATCHERS.find? (fun m =>
      l.any (fun candidate => m.patterns.any (fun pattern =>
        jsIncludes candidate pattern))) with
  | some m =>
      rw [hfind] at h
      have hm := List.mem_of_find?_eq_some hfind
      simp only [STAGE_MATCHERS, List.mem_cons, List.not_mem_nil, or_false] at hm
      rcases hm with rfl | rfl | rfl | rfl | rfl | rfl <;> simp at h
  | none =>
      have hnone := List.find?_eq_none.mp hfind
      rw [List.find?_eq_none.mpr ?_]
      intro m hm
      have := hnone m hm
      simp only [List.any_eq_true, not_exists, not_and, Bool.not_eq_true] at this ⊢
      intro x hx
      exact this x (hsub x hx)

theorem normaliseProcurementStageToken_mem (v : Option String) :
    normaliseProcurementStageToken v = "" ∨
      normaliseProcurementStageToken v ∈ stageTokens := by
  unfold normaliseProcurementStageToken
  by_cases h1 : normaliseTokenOpt v = ""
  · simp [h1]
  · simp only [h1, if_false]
    by_cases h2 : stageTokens.contains (normaliseTokenOpt v)
    · simp only [h2, if_true]
      exact Or.inr (List.elem_iff.mp h2)
    · simp only [h2, if_false]
      exact resolveStageToken_mem _

theorem stageLabelOf_mem {t : String} (h : t ∈ stageTokens) :
    stageLabelOf t ∈ stageLabels := by
  simp only [stageTokens, List.mem_cons, List.not_mem_nil, or_false] at h
  rcases h with rfl | rfl | rfl | rfl | rfl | rfl <;> decide

theorem deriveProcurementStage_mem (notice : Notice) :
    deriveProcurementStage notice = "" ∨
      deriveProcurementStage notice ∈ stageLabels := by
  simp only [deriveProcurementStage]
  split_ifs with h1 h2 h3 h4 h5 h6 h7 h8 h9
  · rcases normaliseProcurementStageToken_mem notice.procurementStage with he | he
    · exact absurd he h1
    · exact Or.inr (stageLabelOf_mem he)
  · exact Or.inr (by decide)
  · exact Or.inr (by decide)
  · exact Or.inr (by decide)
  · exact Or.inr (by decide)
  · exact Or.inr (by decide)
  · exact Or.inr (by decide)
  · rcases resolveStageToken_mem (candidatesOf notice) with he | he
    · exact absurd he h8
    · exact Or.inr (stageLabelOf_mem he)
  · exact Or.inr (by decide)
  · exact Or.inl rfl

/-- C9: a notice whose explicit `procurementStage` field normalises to a
recognised stage token is classified by that token alone — replacing
`noticeType` and `noticeStatus` by any values at all leaves the result equal to
the explicit token's label. -/
theorem claim_C9 (notice : Notice) (ntype nstatus : Option String)
    (h : explicitTokenOf notice ≠ "") :
    deriveProcurementStage
        { notice with noticeType := ntype, noticeStatus := nstatus } =
      stageLabelOf (explicitTokenOf notice) ∧
    stageLabelOf (explicitTokenOf notice) ∈ stageLabels := by
  have hexp : explicitTokenOf
      { notice with noticeType := ntype, noticeStatus := nstatus } =
      explicitTokenOf notice := rfl
  constructor
  · simp only [deriveProcurementStage, hexp, h, ne_eq, not_false_eq_true, if_true]
  · rcases normaliseProcurementStageToken_mem notice.procurementStage with he | he
    · exact absurd he h
    · exact stageLabelOf_mem he

/-- C9 (witness): an explicit "Award" stage wins over a conflicting
Contracts Finder type/status pair that would otherwise classify as
Pipeline/Tender. -/
theorem claim_C9_witness :
    deriveProcurementStage
        { ({ procurementStage := some "Award", source := "CF" } : Notice) with
          noticeType := some "Pipeline", noticeStatus := some "Open" } = "Award" := by
  have h := claim_C9 { procurementStage := some "Award", source := "CF" }
    (some "Pipeline") (some "Open") (by decide)
  exact h.1.trans (by decide)

/-- Attaching a recognised label as the explicit stage makes the classifier
return exactly that label, whatever the rest of the notice says. -/
theorem derive_attach_label (notice : Notice) {l : String} (hl : l ∈ stageLabels) :
    deriveProcurementStage { notice with procurementStage := some l } = l := by
  simp only [stageLabels, List.mem_cons, List.not_mem_nil, or_false] at hl
  rcases hl with rfl | rfl | rfl | rfl | rfl | rfl
  · have e : explicitTokenOf { notice with procurementStage := some "Pipeline" } =
      "pipeline" := rfl
    simp only [deriveProcurementStage, e]
    rw [if_pos (show ("pipeline" : String) ≠ "" from by decide)]
    decide
  · have e : explicitTokenOf { notice with procurementStage := some "Planning" } =
      "planning" := rfl
    simp only [deriveProcurementStage, e]
    rw [if_pos (show ("planning" : String) ≠ "" from by decide)]
    decide
  · have e : explicitTokenOf { notice with procurementStage := some "Tender" } =
      "tender" := rfl
    simp only [deriveProcurementStage, e]
    rw [if_pos (show ("tender" : String) ≠ "" from by decide)]
    decide
  · have e : explicitTokenOf { notice with procurementStage := some "Award" } =
      "award" := rfl
    simp only [deriveProcurementStage, e]
    rw [if_pos (show ("award" : String) ≠ "" from by decide)]
    decide
  · have e : explicitTokenOf { notice with procurementStage := some "Contract" } =
      "contract" := rfl
    simp only [deriveProcurementStage, e]
    rw [if_pos (show ("contract" : String) ≠ "" from by decide)]
    decide
  · have e : explicitTokenOf { notice with procurementStage := some "Termination" } =
      "termination" := rfl
    simp only [deriveProcurementStage, e]
    rw [if_pos (show ("termination" : String) ≠ "" from by decide)]
    decide

/-- The Contracts Finder shortcut / pattern-resolution tail of
`deriveProcurementStage`, abstracted over the notice-derived inputs; the
classifier body is definitionally this tail guarded by the explicit-token
branch. -/
def stageTail (c : Bool) (t s : String) (m : Bool) (r : String) : String :=
  if c && t = "pipeline" then "Pipeline"
  else if c && t = "preprocurement" then "Planning"
  else if c && s = "open" then "Tender"
  else if c && s = "awarded" then (if m then "Contract" else "Award")
  else if c && s = "closed" then "Termination"
  else if r ≠ "" then stageLabelOf r
  else if c && t = "contract" then "Tender"
  else ""

theorem derive_eq_tail (notice : Notice) :
    deriveProcurementStage notice =
      if explicitTokenOf notice ≠ "" then stageLabelOf (explicitTokenOf notice)
      else stageTail (cfSource notice) (typeTokenOf notice) (statusTokenOf notice)
        (hasContractTiming notice) (resolveStageToken (candidatesOf notice)) := rfl

theorem explicitTokenOf_mem (notice : Notice) :
    explicitTokenOf notice = "" ∨ explicitTokenOf notice ∈ stageTokens :=
  normaliseProcurementStageToken_mem notice.procurementStage

/-- If the whole tail evaluates to the empty sentinel, the pattern-resolution
input must itself have been empty (every other branch yields a non-empty
label). -/
theorem tail_empty_resolve (c : Bool) (t s : String) (m : Bool) (r : String)
    (hr : r = "" ∨ r ∈ stageTokens) (h : stageTail c t s m r = "") : r = "" := by
  by_cases h7 : r = ""
  · exact h7
  · exfalso
    rcases hr with h1 | h1
    · exact h7 h1
    · unfold stageTail at h
      split_ifs at h <;>
        first
          | exact absurd h (by decide)
          | (have hmem := stageLabelOf_mem h1
             rw [h] at hmem
             exact absurd hmem (by decide))

/-! ## Filter Engine claims -/

theorem cf_not_fts {notice : Notice} (h : isContractsFinder notice = true) :
    isFindATender notice = false := by
  unfold isContractsFinder at h
  unfold isFindATender
  simp only [Bool.or_eq_true, decide_eq_true_eq] at h
  simp only [Bool.or_eq_false_iff, decide_eq_false_iff_not]
  rcases h with h | h <;> rw [h] <;> exact ⟨⟨by decide, by decide⟩, by decide⟩

/-- The keyword clause is inert for any notice that is not source-B. -/
theorem keywordOk_of_not_fts {notice : Notice} (c : FilterCriteria)
    (hf : isFindATender notice = false) : keywordOk c notice = true := by
  unfold keywordOk
  rw [hf]
  simp

/-- C8: keyword filtering applies only to source-B (FTS) notices.  A source-A
(CF) notice passes or fails `applyFilters` identically under any keyword list;
a source-B notice facing a non-empty processed keyword list is kept only if
some lowercased keyword occurs in the searchable blob AND the notice passes
the Authority-Match Filter. -/
theorem claim_C8 :
    (∀ (c : FilterCriteria) (ks : List String) (notice : Notice),
      isContractsFinder notice = true →
        noticePasses { c with keywords := ks } notice = noticePasses c notice) ∧
    (∀ (c : FilterCriteria) (notice : Notice),
      isFindATender notice = true → kwOf c ≠ [] →
        noticePasses c notice = true →
          ((kwOf c).any (fun token =>
              jsIncludes (buildSearchableBlob notice) token) = true ∧
            matchesAuthorityKeywords notice = true)) := by
  constructor
  · intro c ks notice hcf
    have hf := cf_not_fts hcf
    unfold noticePasses
    rw [keywordOk_of_not_fts { c with keywords := ks } hf,
      keywordOk_of_not_fts c hf]
    rfl
  · intro c notice hfts hkw hp
    simp only [noticePasses, Bool.and_eq_true] at hp
    have hk := hp.1.1.2
    unfold keywordOk at hk
    rw [if_pos (by simp [hfts, hkw])] at hk
    exact Bool.and_eq_true_iff.mp hk

/-- C8 (witness): both parts instantiated — a CF notice is untouched by a
keyword list it does not match, and a kept FTS notice satisfied both the blob
match and the authority match. -/
theorem claim_C8_witness :
    noticePasses { keywords := ["quantum"] } ({ source := "CF" } : Notice) =
        noticePasses ({} : FilterCriteria) ({ source := "CF" } : Notice) ∧
      ((kwOf { keywords := ["cloud"] }).any (fun token =>
          jsIncludes (buildSearchableBlob
            { source := "FTS", title := some "Cloud services for the NHS" })
            token) = true ∧
        matchesAuthorityKeywords
          { source := "FTS", title := some "Cloud services for the NHS" } = true) :=
  ⟨claim_C8.1 {} ["quantum"] { source := "CF" } (by decide),
   claim_C8.2 { keywords := ["cloud"] }
     { source := "FTS", title := some "Cloud services for the NHS" }
     (by decide) (by decide) (by decide)⟩

theorem withinValueRange_iff (mn mx : Option ℚ) (current : ℚ) :
    withinValueRange mn mx current = true ↔
      (∀ a, mn = some a → a ≤ current) ∧ (∀ b, mx = some b → current ≤ b) := by
  cases mn <;> cases mx <;> simp [withinValueRange, not_lt]

/-- The notice of the spec's value-range scenario: `valueLow = 1000`,
`valueHigh = null`, `awardedValue = null`. -/
def vNotice : Notice := { source := "CF", valueLow := .num 1000 }

/-- C5: with at least one value bound given, `applyFilters` collects the
parseable numeric values of `valueLow`/`valueHigh`/`awardedValue`; the value
clause passes exactly when no value was collected or some collected value lies
within the closed requested range, a failing value clause drops the notice,
and the `valueLow = 1000` scenario passes `{500, 2000}` and fails
`{2000, 3000}`. -/
theorem claim_C5 :
    (∀ (c : FilterCriteria) (notice : Notice),
      ((minValueOf c).isSome ∨ (maxValueOf c).isSome) →
        (valueOk c notice = true ↔
          (numericValuesOf notice = [] ∨
            ∃ v ∈ numericValuesOf notice,
              (∀ a, minValueOf c = some a → a ≤ v) ∧
              (∀ b, maxValueOf c = some b → v ≤ b)))) ∧
    (∀ (c : FilterCriteria) (notice : Notice),
      valueOk c notice = false → applyFilters [notice] c = []) ∧
    applyFilters [vNotice] { valueFrom := .num 500, valueTo := .num 2000 } =
      [vNotice] ∧
    applyFilters [vNotice] { valueFrom := .num 2000, valueTo := .num 3000 } = [] := by
  refine ⟨?_, ?_, by decide, by decide⟩
  · intro c notice hgiven
    unfold valueOk
    rw [if_pos (by rcases hgiven with hg | hg <;> simp [hg])]
    by_cases hempty : numericValuesOf notice = []
    · simp [hempty]
    · rw [if_pos hempty]
      simp only [List.any_eq_true, withinValueRange_iff]
      constructor
      · intro ⟨v, hv, hw⟩
        exact Or.inr ⟨v, hv, hw⟩
      · intro h
        rcases h with h | ⟨v, hv, hw⟩
        · exact absurd h hempty
        · exact ⟨v, hv, hw⟩
  · intro c notice hfail
    have : noticePasses c notice = false := by
      unfold noticePasses
      rw [hfail]
      simp
    simp [applyFilters, List.filter, this]

/-- C5 (witness): the general equivalence instantiated at the scenario
notice and the `{500, 2000}` bounds. -/
theorem claim_C5_witness :
    valueOk { valueFrom := .num 500, valueTo := .num 2000 } vNotice = true := by
  refine (claim_C5.1 { valueFrom := .num 500, valueTo := .num 2000 } vNotice
    (Or.inl (by decide))).mpr (Or.inr ⟨1000, by decide, ?_, ?_⟩)
  · intro a ha
    have h5 : minValueOf { valueFrom := JNum.num 500, valueTo := JNum.num 2000 } =
      some 500 := rfl
    rw [h5] at ha
    rw [← Option.some.inj ha]
    norm_num
  · intro b hb
    have h5 : maxValueOf { valueFrom := JNum.num 500, valueTo := JNum.num 2000 } =
      some 2000 := rfl
    rw [h5] at hb
    rw [← Option.some.inj hb]
    norm_num

/-- The notice of the spec's date-range scenario. -/
def dNotice : Notice := { source := "CF", publishedDate := some "2024-06-15T12:00:00Z" }

/-- A notice with no date field at all. -/
def noDateNotice : Notice := { source := "CF" }

/-- C6 (counterexample): the claim says a notice with no resolvable date is
dropped once any date bound is given.  But `dateFrom = "1970-01-01"` is a date
bound whose normalised start timestamp is exactly 0, which is falsy in JS, so
`applyFilters` skips the whole date block and KEEPS the dateless notice. -/
theorem claim_C6_counterexample :
    applyFilters [noDateNotice] { dateFrom := some "1970-01-01" } =
      [noDateNotice] := by decide

/-- C6 (amended): with at least one date bound normalising to a non-zero
timestamp, the candidate date is `publishedDate`, else the first parseable of
`lastNotifiableUpdate`, `awardedDate`, `deadlineDate`; a notice with no
candidate fails the date clause (and is dropped), and a candidate must lie at
or after a non-zero start bound (00:00:00 UTC of the named day) and at or
before a non-zero end bound (23:59:59 UTC of the named day).  A bound whose
timestamp is exactly 0 (the epoch day 1970-01-01) is treated as absent.  The
boundary scenario holds: a notice published 2024-06-15T12:00:00Z passes
`{dateFrom: 2024-06-15, dateTo: 2024-06-15}` and fails
`{dateFrom: 2024-06-16}`. -/
theorem claim_C6 :
    (∀ (c : FilterCriteria) (notice : Notice),
      (intOptTruthy (fromTimeOf c) = true ∨ intOptTruthy (toTimeOf c) = true) →
        ((dateCandidate notice = none → dateOk c notice = false) ∧
         (∀ t, dateCandidate notice = some t →
            (dateOk c notice = true ↔
              (∀ f, fromTimeOf c = some f → f ≠ 0 → f ≤ t) ∧
              (∀ g, toTimeOf c = some g → g ≠ 0 → t ≤ g))))) ∧
    (∀ (notice : Notice) (t : Int), parseDateSafe notice.publishedDate = some t →
        dateCandidate notice = some t) ∧
    (∀ notice : Notice, parseDateSafe notice.publishedDate = none →
        dateCandidate notice =
          ([notice.lastNotifiableUpdate, notice.awardedDate,
            notice.deadlineDate].filterMap parseDateSafe).head?) ∧
    (∀ (c : FilterCriteria) (notice : Notice),
      dateOk c notice = false → applyFilters [notice] c = []) ∧
    (∀ notice : Notice,
      dateOk { dateFrom := some "1970-01-01" } notice = true) ∧
    applyFilters [dNotice]
      { dateFrom := some "2024-06-15", dateTo := some "2024-06-15" } = [dNotice] ∧
    applyFilters [dNotice] { dateFrom := some "2024-06-16" } = [] := by
  refine ⟨?_, ?_, ?_, ?_, ?_, by decide, by decide⟩
  · intro c notice hg
    have hcond : (intOptTruthy (fromTimeOf c) || intOptTruthy (toTimeOf c)) = true := by
      rcases hg with hg | hg <;> simp [hg]
    refine ⟨?_, ?_⟩
    · intro hnone
      unfold dateOk
      rw [if_pos hcond, hnone]
    · intro t hcand
      unfold dateOk
      rw [if_pos hcond, hcand]
      cases hf : fromTimeOf c with
      | none =>
          cases hgt : toTimeOf c with
          | none =>
              rw [hf, hgt] at hcond
              simp [intOptTruthy] at hcond
          | some g =>
              by_cases hg0 : g = 0
              · subst hg0
                simp [intOptTruthy]
              · simp [intOptTruthy, hg0, not_lt]
      | some f =>
          by_cases hf0 : f = 0
          · subst hf0
            cases hgt : toTimeOf c with
            | none =>
                rw [hf, hgt] at hcond
                simp [intOptTruthy] at hcond
            | some g =>
                by_cases hg0 : g = 0
                · subst hg0
                  simp [intOptTruthy]
                · simp [intOptTruthy, hg0, not_lt]
          · cases hgt : toTimeOf c with
            | none => simp [intOptTruthy, hf0, not_lt]
            | some g =>
                by_cases hg0 : g = 0
                · subst hg0
                  simp [intOptTruthy, hf0, not_lt]
                · simp [intOptTruthy, hf0, hg0, not_lt]
  · intro notice t ht
    unfold dateCandidate
    rw [ht]
  · intro notice ht
    unfold dateCandidate
    rw [ht]
  · intro c notice hfail
    have : noticePasses c notice = false := by
      unfold noticePasses
      rw [hfail]
      simp
    simp [applyFilters, List.filter, this]
  · intro notice
    unfold dateOk
    rw [if_neg (show ¬((intOptTruthy
      (fromTimeOf { dateFrom := some "1970-01-01" }) ||
        intOptTruthy (toTimeOf { dateFrom := some "1970-01-01" })) = true)
      from by decide)]

/-- C6 (witness): the amended date-clause equivalence instantiated at the
boundary scenario. -/
theorem claim_C6_witness :
    dateOk { dateFrom := some "2024-06-15", dateTo := some "2024-06-15" }
      dNotice = true := by
  refine ((claim_C6.1 { dateFrom := some "2024-06-15", dateTo := some "2024-06-15" }
    dNotice (Or.inl (by decide))).2 1718452800000 (by decide)).mpr ⟨?_, ?_⟩
  · intro f hf _
    have he : fromTimeOf
        { dateFrom := some "2024-06-15", dateTo := some "2024-06-15" } =
        some 1718409600000 := by decide
    rw [he] at hf
    rw [← Option.some.inj hf]
    decide
  · intro g hg _
    have he : toTimeOf
        { dateFrom := some "2024-06-15", dateTo := some "2024-06-15" } =
        some 1718495999000 := by decide
    rw [he] at hg
    rw [← Option.some.inj hg]
    decide

set_option maxRecDepth 8192 in
/-- C3: the Entity Decoder is NOT total.  The guard before
`String.fromCodePoint` is `Number.isFinite`, but `fromCodePoint` throws a
`RangeError` for any finite code point above 0x10FFFF, so
`decodeHtmlEntities("&#x110000;")` raises instead of leaving the escape
sequence untouched — contradicting the documented never-throw policy. -/
theorem claim_C3 :
    decodeHtmlEntities (some "&#x110000;") = Except.error () := by rfl

/-! ## Release-to-Notice Projector claims -/

theorem mostRecentRelease_spec (rs : List JsRelease) (hne : rs ≠ []) :
    ∃ r, mostRecentRelease rs = some r ∧ r ∈ rs ∧
      ∀ r' ∈ rs, releaseKey r' ≤ releaseKey r := by
  induction rs with
  | nil => exact absurd rfl hne
  | cons a t ih =>
      cases hmr : mostRecentRelease t with
      | none =>
          have ht : t = [] := by
            cases t with
            | nil => rfl
            | cons x xs =>
                rw [mostRecentRelease] at hmr
                cases hxs : mostRecentRelease xs with
                | none =>
                    rw [hxs] at hmr
                    simp at hmr
                | some b =>
                    rw [hxs] at hmr
                    by_cases hb : releaseKey x < releaseKey b <;> simp [hb] at hmr
          subst ht
          exact ⟨a, by simp [mostRecentRelease], by simp, by simp⟩
      | some b =>
          have htne : t ≠ [] := by
            rintro rfl
            simp [mostRecentRelease] at hmr
          obtain ⟨r, hr, hmem, hmax⟩ := ih htne
          have hbr : b = r := Option.some.inj (hmr.symm.trans hr)
          subst hbr
          by_cases hcmp : releaseKey b > releaseKey a
          · refine ⟨b, ?_, List.mem_cons_of_mem _ hmem, ?_⟩
            · rw [mostRecentRelease, hmr]
              simp [hcmp]
            · intro r' hr'
              rcases List.mem_cons.mp hr' with rfl | h'
              · exact le_of_lt hcmp
              · exact hmax r' h'
          · refine ⟨a, ?_, List.mem_cons_self _ _, ?_⟩
            · rw [mostRecentRelease, hmr]
              simp [hcmp]
            · intro r' hr'
              rcases List.mem_cons.mp hr' with rfl | h'
              · exact le_refl _
              · exact le_trans (hmax r' h') (not_lt.mp hcmp)

/-- The two releases and package of end-to-end scenario C. -/
def relC4a : JsRelease := { id := some "r1", date := some "2024-01-01" }

def relC4b : JsRelease := { id := some "r2", date := some "2024-03-01" }

def pkgC4 : ReleasePackage := { releases := some [relC4a, relC4b] }

/-- C4: a null package or an empty release list leaves the base record
unchanged (and nothing throws); with a (truthy) base id, an id-matching
release is selected when one exists, otherwise a release with the maximal
parsed date; and in scenario C (two releases dated 2024-01-01 and 2024-03-01,
base id matching neither) the 2024-03-01 release is selected. -/
theorem claim_C4 :
    (∀ base : BaseRecord, mapReleasePackageToNotice base none = baseToNotice base) ∧
    (∀ (base : BaseRecord) (p : ReleasePackage), p.releases = some [] →
      mapReleasePackageToNotice base (some p) = baseToNotice base) ∧
    (∀ (noticeId : String) (p : ReleasePackage) (rs : List JsRelease),
      noticeId ≠ "" → p.releases = some rs →
      (∃ r ∈ rs, r.id = some noticeId) →
      ∃ r, selectRelevantRelease (some p) noticeId = some r ∧
        r.id = some noticeId) ∧
    (∀ (noticeId : String) (p : ReleasePackage) (rs : List JsRelease),
      noticeId ≠ "" → p.releases = some rs → rs ≠ [] →
      (∀ r ∈ rs, r.id ≠ some noticeId) →
      ∃ r, selectRelevantRelease (some p) noticeId = some r ∧ r ∈ rs ∧
        ∀ r' ∈ rs, releaseKey r' ≤ releaseKey r) ∧
    selectRelevantRelease (some pkgC4) "base-x" = some relC4b := by
  refine ⟨?_, ?_, ?_, ?_, by decide⟩
  · intro base
    rfl
  · intro base p hp
    simp [mapReleasePackageToNotice, selectRelevantRelease, hp]
  · intro noticeId p rs hid hrel hex
    simp only [selectRelevantRelease, hrel]
    have hne : rs ≠ [] := by
      rintro rfl
      rcases hex with ⟨r, hr, _⟩
      exact absurd hr (List.not_mem_nil r)
    rw [if_neg (fun h0 => hne (List.length_eq_zero.mp h0)), if_neg hid]
    obtain ⟨r, hr, hrid⟩ := hex
    have hsome : (rs.find? (fun release => release.id = some noticeId)).isSome := by
      rw [List.find?_isSome]
      exact ⟨r, hr, by simp [hrid]⟩
    obtain ⟨r', hr'⟩ := Option.isSome_iff_exists.mp hsome
    rw [hr']
    exact ⟨r', rfl, by simpa using List.find?_some hr'⟩
  · intro noticeId p rs hid hrel hne hall
    simp only [selectRelevantRelease, hrel]
    rw [if_neg (fun h0 => hne (List.length_eq_zero.mp h0)), if_neg hid]
    have hfind : rs.find? (fun release => release.id = some noticeId) = none := by
      rw [List.find?_eq_none]
      intro x hx
      simp [hall x hx]
    rw [hfind]
    exact mostRecentRelease_spec rs hne

/-- C4 (witness): the most-recent-release selection applied to scenario C. -/
theorem claim_C4_witness :
    ∃ r, selectRelevantRelease (some pkgC4) "base-x" = some r ∧
      r ∈ [relC4a, relC4b] ∧
      ∀ r' ∈ [relC4a, relC4b], releaseKey r' ≤ releaseKey r :=
  claim_C4.2.2.2.1 "base-x" pkgC4 [relC4a, relC4b] (by decide) rfl (by decide)
    (by decide)

/-! ## Prototype-chain model of the Stage Classifier

`STAGE_LABELS` and `TYPE_ALIAS` (src/lib/filters.mjs lines 3-28) are plain
object literals, so `table[token]` falls through to `Object.prototype` when
`token` is not an own key.  Token normalisation keeps only `[a-z0-9]`, and the
single `Object.prototype` property name of that shape is `constructor`, whose
value is the (truthy) `Object` constructor function.  This layer models the
values that can therefore flow through the classifier: ordinary strings plus
that one function value, and the `TypeError` raised when the function is
unshifted into `resolveStageToken`'s candidate list
(`candidate.includes is not a function`).  The dynamically-typed
`procurementStage` slot — the one notice field the search route can overwrite
with the non-string value — is passed alongside the string-typed remainder of
the notice. -/

/-- A JS value that can occupy the `procurementStage` slot or come out of the
table lookups: a string, or the inherited `Object` constructor function. -/
inductive JsDyn where
  | str (s : String) : JsDyn
  | objectCtor : JsDyn
deriving DecidableEq, Repr

/-- JS truthiness of such a value (a function is truthy, `""` is falsy). -/
def jsdynTruthy : JsDyn → Bool
  | .str s => s ≠ ""
  | .objectCtor => true

/-- JS `normaliseToken(String(Object))`: the ES NativeFunction string
`function Object() { [native code] }` lowercased with everything outside
`[a-z0-9]` removed — the same token in every conforming engine, since the
grammar only leaves whitespace/punctuation freedom. -/
def objectCtorToken : String :=
  normaliseToken "function Object() \x7b [native code] \x7d"

/-- JS `normaliseToken` applied to the dynamic stage slot (`String(value)` of
the function is the NativeFunction string). -/
def normaliseTokenJs : Option JsDyn → String
  | none => ""
  | some (.str s) => normaliseToken s
  | some .objectCtor => objectCtorToken

/-- JS `STAGE_LABELS[token]` including the prototype chain: the six own
entries, plus the inherited `constructor` ↦ `Object`; `none` is
`undefined`. -/
def stageLabelsLookupJs (token : String) : Option JsDyn :=
  if token = "pipeline" then some (.str "Pipeline")
  else if token = "planning" then some (.str "Planning")
  else if token = "tender" then some (.str "Tender")
  else if token = "award" then some (.str "Award")
  else if token = "contract" then some (.str "Contract")
  else if token = "termination" then some (.str "Termination")
  else if token = "constructor" then some .objectCtor
  else none

/-- JS `normaliseProcurementStageToken` (src/lib/filters.mjs lines 222-228)
with the prototype-aware truthiness test: every value in the table (labels and
the inherited constructor) is truthy, so the test is `isSome`. -/
def normaliseProcurementStageTokenJs (value : Option JsDyn) : String :=
  let token := normaliseTokenJs value
  if token = "" then ""
  else if (stageLabelsLookupJs token).isSome then token
  else resolveStageToken [token]

/-- JS `normaliseContractsFinderType` (src/lib/filters.mjs lines 216-220) with
the prototype-aware `TYPE_ALIAS[token] || token`: the inherited
`TYPE_ALIAS["constructor"]` is the truthy `Object` constructor. -/
def normaliseContractsFinderTypeJs (value : String) : JsDyn :=
  let token := normaliseToken value
  if token = "" then .str ""
  else if token = "contract" then .str "contract"
  else if token = "opportunity" then .str "contract"
  else if token = "pipeline" then .str "pipeline"
  else if token = "futureopportunity" then .str "pipeline"
  else if token = "preprocurement" then .str "preprocurement"
  else if token = "earlyengagement" then .str "preprocurement"
  else if token = "constructor" then .objectCtor
  else .str token

/-- JS `normaliseContractsFinderType(notice.noticeType || "")` in the
prototype-aware model (src/lib/filters.mjs line 132). -/
def typeTokenJsOf (notice : Notice) : JsDyn :=
  normaliseContractsFinderTypeJs (orEmpty notice.noticeType)

/-- One `push` of the dynamic stage slot in `collectStageCandidates`
(src/lib/filters.mjs lines 176-186): the function value is not
null/undefined/`""`/array, so it is stringified and tokenised. -/
def tokListJs : Option JsDyn → List String
  | none => []
  | some (.str s) => tokList (some s)
  | some .objectCtor => [objectCtorToken]

/-- JS `collectStageCandidates` (src/lib/filters.mjs lines 174-201) with the
dynamic stage slot: the remaining pushes read only string-typed fields, so
they are the own-property collector run with an empty stage slot. -/
def collectStageCandidatesJs (psJs : Option JsDyn) (notice : Notice) : List String :=
  tokListJs psJs ++ collectStageCandidates { notice with procurementStage := none }

/-- The explicit-token step of the prototype-aware classifier
(src/lib/filters.mjs line 128). -/
def explicitTokenJsOf (psJs : Option JsDyn) : String :=
  normaliseProcurementStageTokenJs psJs

/-- Lines 131-156 of `deriveProcurementStage` in the prototype-aware model:
the Contracts Finder shortcuts compare the (possibly function-valued)
`typeToken` with string literals; then a truthy `typeToken` is unshifted onto
the candidate base (`unshiftTruthy`) and a non-empty status token is pushed
(`pushTruthy`), as on lines 145-148.  A function-valued `typeToken` there
makes `resolveStageToken` evaluate `candidate.includes(pattern)` on its first
candidate and throw TypeError. -/
def unshiftTruthy (t : String) (l : List String) : List String :=
  if t ≠ "" then t :: l else l

def pushTruthy (s : String) (l : List String) : List String :=
  if s ≠ "" then l ++ [s] else l

def stageTailJs (c : Bool) (ty : JsDyn) (s : String) (m : Bool)
    (base : List String) : Except Unit JsDyn :=
  if c && ty = JsDyn.str "pipeline" then .ok (.str "Pipeline")
  else if c && ty = JsDyn.str "preprocurement" then .ok (.str "Planning")
  else if c && s = "open" then .ok (.str "Tender")
  else if c && s = "awarded" then .ok (.str (if m then "Contract" else "Award"))
  else if c && s = "closed" then .ok (.str "Termination")
  else
    match ty with
    | .objectCtor => .error ()
    | .str t =>
        let candidates := pushTruthy s (unshiftTruthy t base)
        let resolved := resolveStageToken candidates
        if resolved ≠ "" then .ok ((stageLabelsLookupJs resolved).getD (.str ""))
        else if c && t = "contract" then .ok (.str "Tender")
        else .ok (.str "")

/-- JS `deriveProcurementStage` (src/lib/filters.mjs lines 125-157) in the
prototype-aware model: `psJs` is the dynamically-typed `procurementStage`
slot, `notice` carries the string-typed remainder (its own `procurementStage`
field is ignored here).  `Except.error` is the TypeError escaping the
function. -/
def deriveProcurementStageJs (psJs : Option JsDyn) (notice : Notice) :
    Except Unit JsDyn :=
  if explicitTokenJsOf psJs ≠ "" then
    .ok ((stageLabelsLookupJs (explicitTokenJsOf psJs)).getD (.str ""))
  else
    stageTailJs (cfSource notice) (typeTokenJsOf notice) (statusTokenOf notice)
      (hasContractTiming notice) (collectStageCandidatesJs psJs notice)

/-- The search route's `procurementStage: stageLabel || null` on a derived
dynamic value (src/app/api/search/route.ts lines 122-123): the function value
is truthy and is attached as-is. -/
def routeStageFieldJs (v : JsDyn) : Option JsDyn :=
  if jsdynTruthy v then some v else none

theorem stageLabelsLookupJs_isSome {t : String}
    (h : (stageLabelsLookupJs t).isSome = true) :
    t ∈ stageTokens ∨ t = "constructor" := by
  unfold stageLabelsLookupJs at h
  split_ifs at h with h1 h2 h3 h4 h5 h6 h7
  · exact Or.inl (by rw [h1]; decide)
  · exact Or.inl (by rw [h2]; decide)
  · exact Or.inl (by rw [h3]; decide)
  · exact Or.inl (by rw [h4]; decide)
  · exact Or.inl (by rw [h5]; decide)
  · exact Or.inl (by rw [h6]; decide)
  · exact Or.inr h7
  · exact absurd h (by decide)

theorem stageLabelsLookupJs_of_mem {t : String} (h : t ∈ stageTokens) :
    stageLabelsLookupJs t = some (JsDyn.str (stageLabelOf t)) := by
  simp only [stageTokens, List.mem_cons, List.not_mem_nil, or_false] at h
  rcases h with rfl | rfl | rfl | rfl | rfl | rfl <;> decide

theorem normPSTJs_cases (psJs : Option JsDyn) :
    normaliseProcurementStageTokenJs psJs = "" ∨
      normaliseProcurementStageTokenJs psJs ∈ stageTokens ∨
      (normaliseProcurementStageTokenJs psJs = "constructor" ∧
        normaliseTokenJs psJs = "constructor") := by
  unfold normaliseProcurementStageTokenJs
  by_cases h1 : normaliseTokenJs psJs = ""
  · simp [h1]
  · simp only [h1, if_false]
    by_cases h2 : (stageLabelsLookupJs (normaliseTokenJs psJs)).isSome = true
    · simp only [h2, if_true]
      rcases stageLabelsLookupJs_isSome h2 with hm | hc
      · exact Or.inr (Or.inl hm)
      · exact Or.inr (Or.inr ⟨hc, hc⟩)
    · simp only [h2, if_false]
      rcases resolveStageToken_mem [normaliseTokenJs psJs] with he | he
      · exact Or.inl he
      · exact Or.inr (Or.inl he)

/-- Attaching one of the six labels as the dynamic stage slot makes the
prototype-aware classifier return exactly that label. -/
theorem derive_attach_label_js (notice : Notice) {l : String}
    (hl : l ∈ stageLabels) :
    deriveProcurementStageJs (some (JsDyn.str l)) notice =
      Except.ok (JsDyn.str l) := by
  simp only [stageLabels, List.mem_cons, List.not_mem_nil, or_false] at hl
  rcases hl with rfl | rfl | rfl | rfl | rfl | rfl
  · have e : explicitTokenJsOf (some (JsDyn.str "Pipeline")) = "pipeline" := rfl
    simp only [deriveProcurementStageJs, e]
    rw [if_pos (show ("pipeline" : String) ≠ "" from by decide)]
    rfl
  · have e : explicitTokenJsOf (some (JsDyn.str "Planning")) = "planning" := rfl
    simp only [deriveProcurementStageJs, e]
    rw [if_pos (show ("planning" : String) ≠ "" from by decide)]
    rfl
  · have e : explicitTokenJsOf (some (JsDyn.str "Tender")) = "tender" := rfl
    simp only [deriveProcurementStageJs, e]
    rw [if_pos (show ("tender" : String) ≠ "" from by decide)]
    rfl
  · have e : explicitTokenJsOf (some (JsDyn.str "Award")) = "award" := rfl
    simp only [deriveProcurementStageJs, e]
    rw [if_pos (show ("award" : String) ≠ "" from by decide)]
    rfl
  · have e : explicitTokenJsOf (some (JsDyn.str "Contract")) = "contract" := rfl
    simp only [deriveProcurementStageJs, e]
    rw [if_pos (show ("contract" : String) ≠ "" from by decide)]
    rfl
  · have e : explicitTokenJsOf (some (JsDyn.str "Termination")) = "termination" := rfl
    simp only [deriveProcurementStageJs, e]
    rw [if_pos (show ("termination" : String) ≠ "" from by decide)]
    rfl


theorem mem_pushTruthy_unshiftTruthy {t s : String} {base base' : List String}
    (hsub : ∀ x ∈ base', x ∈ base) :
    ∀ x ∈ pushTruthy s (unshiftTruthy t base'),
      x ∈ pushTruthy s (unshiftTruthy t base) := by
  intro x hx
  unfold pushTruthy unshiftTruthy at hx ⊢
  split_ifs at hx ⊢
  · rcases List.mem_append.mp hx with hx1 | hx2
    · rcases List.mem_cons.mp hx1 with rfl | hx3
      · exact List.mem_append_left _ (List.mem_cons_self _ _)
      · exact List.mem_append_left _ (List.mem_cons_of_mem _ (hsub _ hx3))
    · exact List.mem_append_right _ hx2
  · rcases List.mem_append.mp hx with hx1 | hx2
    · exact List.mem_append_left _ (hsub _ hx1)
    · exact List.mem_append_right _ hx2
  · rcases List.mem_cons.mp hx with rfl | hx3
    · exact List.mem_cons_self _ _
    · exact List.mem_cons_of_mem _ (hsub _ hx3)
  · exact hsub _ hx

/-- A successful run of the prototype-aware tail yields one of the six labels,
or the empty sentinel — and in the sentinel case the run is insensitive to
shrinking the candidate base (used for re-derivation after a null
attachment). -/
theorem stageTailJs_ok_cases (c : Bool) (ty : JsDyn) (s : String) (m : Bool)
    (base : List String) (v : JsDyn)
    (h : stageTailJs c ty s m base = Except.ok v) :
    (∃ l ∈ stageLabels, v = JsDyn.str l) ∨
      (v = JsDyn.str "" ∧ ∀ base', (∀ x ∈ base', x ∈ base) →
        stageTailJs c ty s m base' = Except.ok (JsDyn.str "")) := by
  simp only [stageTailJs] at h
  split_ifs at h with a1 a2 a3 a4 a5 a6
  · injection h with h'
    exact Or.inl ⟨"Pipeline", by decide, h'.symm⟩
  · injection h with h'
    exact Or.inl ⟨"Planning", by decide, h'.symm⟩
  · injection h with h'
    exact Or.inl ⟨"Tender", by decide, h'.symm⟩
  · injection h with h'
    exact Or.inl ⟨"Contract", by decide, h'.symm⟩
  · injection h with h'
    exact Or.inl ⟨"Award", by decide, h'.symm⟩
  · injection h with h'
    exact Or.inl ⟨"Termination", by decide, h'.symm⟩
  · cases ty with
    | objectCtor => exact absurd h (by simp)
    | str t =>
        simp only [] at h
        by_cases hr : resolveStageToken (pushTruthy s (unshiftTruthy t base)) ≠ ""
        · rw [if_pos hr] at h
          rcases resolveStageToken_mem
              (pushTruthy s (unshiftTruthy t base)) with he | he
          · exact absurd he hr
          · rw [stageLabelsLookupJs_of_mem he, Option.getD_some] at h
            injection h with h'
            exact Or.inl ⟨_, stageLabelOf_mem he, h'.symm⟩
        · rw [if_neg hr] at h
          by_cases hc8 : (c && decide (t = "contract")) = true
          · rw [if_pos hc8] at h
            injection h with h'
            exact Or.inl ⟨"Tender", by decide, h'.symm⟩
          · rw [if_neg hc8] at h
            injection h with h'
            refine Or.inr ⟨h'.symm, ?_⟩
            intro base' hsub
            have hr' := resolveStageToken_eq_empty_of_subset
              (mem_pushTruthy_unshiftTruthy hsub) (not_ne_iff.mp hr)
            simp only [stageTailJs, if_neg a1, if_neg a2, if_neg a3, if_neg a4,
              if_neg a6]
            rw [if_neg (fun hcc => hcc hr'), if_neg hc8]

/-- A derived label is truthy, so the route's `stageLabel || null` attaches it
unchanged. -/
theorem routeStageFieldJs_label {l : String} (hl : l ∈ stageLabels) :
    routeStageFieldJs (JsDyn.str l) = some (JsDyn.str l) := by
  have hne : l ≠ "" := by
    simp only [stageLabels, List.mem_cons, List.not_mem_nil, or_false] at hl
    rcases hl with rfl | rfl | rfl | rfl | rfl | rfl <;> decide
  simp [routeStageFieldJs, jsdynTruthy, hne]

set_option maxRecDepth 8192 in
/-- C2: refuted — `deriveProcurementStage` does NOT always return one of the
six labels or the falsy sentinel that the route turns into `null`.
`STAGE_LABELS` and `TYPE_ALIAS` are plain object literals, so they inherit
`Object.prototype`, whose only property name surviving
`normaliseToken` is `constructor`; its value is the truthy `Object`
constructor function.  Hence (i) a notice with `procurementStage:
"constructor"` makes `normaliseProcurementStageToken` accept the token and
the classifier returns `STAGE_LABELS.constructor` — the function value
itself — which the route's `stageLabel || null` then attaches as-is, a
seventh kind of value that is neither a label nor `null`; and (ii) a notice
with `noticeType: "constructor"` turns the type token into that function,
which is truthy, is unshifted into the candidate list, and makes
`resolveStageToken` throw `TypeError: candidate.includes is not a function`
(modelled as `Except.error`), so the function does not even return. -/
theorem claim_C2 :
    deriveProcurementStageJs (some (JsDyn.str "constructor")) { } =
        Except.ok JsDyn.objectCtor ∧
      routeStageFieldJs JsDyn.objectCtor = some JsDyn.objectCtor ∧
      deriveProcurementStageJs none { noticeType := some "constructor" } =
        Except.error () :=
  ⟨rfl, rfl, rfl⟩

/-- C7: for a source-A (Contracts Finder) notice whose dynamic explicit stage
slot yields an empty token, whose type token is (strictly) neither "pipeline"
nor "preprocurement", and whose status normalises to "awarded", the
prototype-aware classifier returns "Contract" when some
contract-start-date-like field is populated and "Award" otherwise.  The CF
status shortcut fires before the candidate scan, so this holds even when the
type token is the pathological inherited function value. -/
theorem claim_C7 (psJs : Option JsDyn) (notice : Notice)
    (hcf : cfSource notice = true)
    (hexp : explicitTokenJsOf psJs = "")
    (hty1 : typeTokenJsOf notice ≠ JsDyn.str "pipeline")
    (hty2 : typeTokenJsOf notice ≠ JsDyn.str "preprocurement")
    (hst : statusTokenOf notice = "awarded") :
    deriveProcurementStageJs psJs notice =
      Except.ok (JsDyn.str
        (if hasContractTiming notice then "Contract" else "Award")) := by
  have h1 : (cfSource notice &&
      decide (typeTokenJsOf notice = JsDyn.str "pipeline")) = false := by
    rw [decide_eq_false hty1, Bool.and_false]
  have h2 : (cfSource notice &&
      decide (typeTokenJsOf notice = JsDyn.str "preprocurement")) = false := by
    rw [decide_eq_false hty2, Bool.and_false]
  have h3 : (cfSource notice &&
      decide (statusTokenOf notice = "open")) = false := by
    rw [hst]; simp
  have h4 : (cfSource notice &&
      decide (statusTokenOf notice = "awarded")) = true := by
    rw [hst, hcf]; simp
  unfold deriveProcurementStageJs
  rw [if_neg (fun hne => hne hexp)]
  unfold stageTailJs
  rw [if_neg (by simp [h1]), if_neg (by simp [h2]), if_neg (by simp [h3]),
    if_pos h4]

def c7Notice : Notice :=
  { source := "CF", noticeStatus := some "Awarded", start := some "2024-01-01" }

/-- A concrete source-A awarded notice with a populated `start` field passes
every hypothesis of the C7 theorem and is classified "Contract". -/
theorem claim_C7_witness :
    cfSource c7Notice = true ∧
      explicitTokenJsOf none = "" ∧
      typeTokenJsOf c7Notice ≠ JsDyn.str "pipeline" ∧
      typeTokenJsOf c7Notice ≠ JsDyn.str "preprocurement" ∧
      statusTokenOf c7Notice = "awarded" ∧
      deriveProcurementStageJs none c7Notice =
        Except.ok (JsDyn.str
          (if hasContractTiming c7Notice then "Contract" else "Award")) :=
  ⟨by decide, by decide, by decide, by decide, by decide,
    claim_C7 none c7Notice (by decide) (by decide) (by decide) (by decide)
      (by decide)⟩

set_option maxRecDepth 8192 in
/-- C10 counterexample: the unrestricted idempotence law fails through the
inherited `constructor` key — the classifier returns the truthy `Object`
constructor function, the route attaches it as-is, and the re-derivation
tokenises `String(Object)` to `functionobjectnativecode`, which matches no
stage pattern, so the second run returns the empty sentinel instead of the
attached value. -/
theorem claim_C10_counterexample :
    deriveProcurementStageJs (some (JsDyn.str "constructor")) { id := "x" } =
        Except.ok JsDyn.objectCtor ∧
      routeStageFieldJs JsDyn.objectCtor = some JsDyn.objectCtor ∧
      deriveProcurementStageJs (some JsDyn.objectCtor) { id := "x" } =
        Except.ok (JsDyn.str "") :=
  ⟨rfl, rfl, rfl⟩

/-- C10 (corrected): stage attachment is idempotent for every run that avoids
the inherited `constructor` key and does not throw — if the dynamic
`procurementStage` slot does not normalise to the token `constructor` and the
prototype-aware classifier succeeds with value `v`, then attaching `v` the way
the search route does (`stageLabel || null`) and re-deriving yields `v`
again.  The unrestricted law is refuted by the counterexample above. -/
theorem claim_C10 (psJs : Option JsDyn) (notice : Notice) (v : JsDyn)
    (hctor : normaliseTokenJs psJs ≠ "constructor")
    (hok : deriveProcurementStageJs psJs notice = Except.ok v) :
    deriveProcurementStageJs (routeStageFieldJs v) notice = Except.ok v := by
  by_cases he : explicitTokenJsOf psJs ≠ ""
  · rcases normPSTJs_cases psJs with h0 | hmem | hcc
    · exact absurd h0 he
    · have hv : v = JsDyn.str
          (stageLabelOf (normaliseProcurementStageTokenJs psJs)) := by
        unfold deriveProcurementStageJs at hok
        rw [if_pos he] at hok
        rw [show explicitTokenJsOf psJs =
            normaliseProcurementStageTokenJs psJs from rfl] at hok
        rw [stageLabelsLookupJs_of_mem hmem, Option.getD_some] at hok
        injection hok with h'
        exact h'.symm
      have hlmem : stageLabelOf (normaliseProcurementStageTokenJs psJs) ∈
          stageLabels := stageLabelOf_mem hmem
      rw [hv, routeStageFieldJs_label hlmem]
      exact derive_attach_label_js notice hlmem
    · exact absurd hcc.2 hctor
  · unfold deriveProcurementStageJs at hok
    rw [if_neg he] at hok
    rcases stageTailJs_ok_cases _ _ _ _ _ _ hok with ⟨l, hl, rfl⟩ | ⟨rfl, hall⟩
    · rw [routeStageFieldJs_label hl]
      exact derive_attach_label_js notice hl
    · rw [show routeStageFieldJs (JsDyn.str "") = none from rfl]
      unfold deriveProcurementStageJs
      rw [if_neg (show ¬(explicitTokenJsOf (none : Option JsDyn) ≠ "") from
        by decide)]
      refine hall _ ?_
      intro x hx
      simp only [collectStageCandidatesJs, tokListJs, List.nil_append] at hx ⊢
      exact List.mem_append_right _ hx

set_option maxRecDepth 8192 in
/-- A concrete run of the corrected C10 law: the dynamic slot "Tender" does
not normalise to `constructor`, derivation yields the label "Tender", and
attaching then re-deriving returns "Tender" again. -/
theorem claim_C10_witness :
    normaliseTokenJs (some (JsDyn.str "Tender")) ≠ "constructor" ∧
      deriveProcurementStageJs (some (JsDyn.str "Tender")) { } =
        Except.ok (JsDyn.str "Tender") ∧
      deriveProcurementStageJs
          (routeStageFieldJs (JsDyn.str "Tender")) { } =
        Except.ok (JsDyn.str "Tender") :=
  ⟨by decide, rfl,
    claim_C10 (some (JsDyn.str "Tender")) { } (JsDyn.str "Tender")
      (by decide) rfl⟩
